import Mathlib

/-!
Verification of the SDRdaemon stream framing protocol (sender packetizer
UDPSink::write, receiver reassembler, Airspy device configuration) against
its natural-language specification.  Machine integers are modelled as Nat
with explicit reductions modulo 2 ^ width at the points where the C++ code
stores into a fixed-width field.  Byte buffers are lists of Nat (each byte
kept below 256 by construction).
-/

/-- Little-endian byte serialization of a value into w bytes, as the x86
memory image of an unsigned integer field of width w bytes. -/
def leBytes : Nat → Nat → List Nat
  | 0, _ => []
  | w + 1, v => v % 256 :: leBytes w (v / 256)

/-- Little-endian read of a byte list back into a natural number. -/
def leNat (bs : List Nat) : Nat := bs.foldr (fun b acc => b % 256 + 256 * acc) 0

/-- Read the w bytes at offset off of a datagram as a little-endian value. -/
def sliceNat (d : List Nat) (off w : Nat) : Nat := leNat ((d.drop off).take w)

/-- Modelled from the spec: the 64-bit checksum primitive (the CRC64 class
implementation is not under src/; the spec only requires a pure deterministic
64-bit checksum over a byte range, identical on sender and receiver).  This
model uses a 64-bit multiplicative fold. -/
def crcModel (bs : List Nat) : Nat :=
  bs.foldl (fun a b => (a * 1099511628211 + b % 256) % 2 ^ 64) 14695981039346656037

/-- External LZ4 library function, modelled from its documented formula
isize + isize/255 + 16 (worst-case compressed size bound). -/
def LZ4_compressBound (isize : Nat) : Nat := isize + isize / 255 + 16

/-- Packed frame header record, mirroring SDRdaemonBuffer::MetaData
(SDRdaemonBuffer.h lines 33-51).  Field values are kept reduced modulo the
width of the corresponding C++ integer type. -/
structure MetaData where
  m_centerFrequency : Nat
  m_sampleRate : Nat
  m_sampleBytes : Nat
  m_sampleBits : Nat
  m_blockSize : Nat
  m_nbSamples : Nat
  m_nbBlocks : Nat
  m_remainderSamples : Nat
  m_nbCompleteBlocks : Nat
  m_tv_sec : Nat
  m_tv_usec : Nat
  m_crc : Nat
deriving DecidableEq

/-- Byte image of the packed MetaData record (pragma pack(1), little-endian):
8 + 4 + 1 + 1 + 2 + 4 + 2 + 2 + 2 + 4 + 4 + 8 = 42 bytes. -/
def serializeMeta (m : MetaData) : List Nat :=
  leBytes 8 m.m_centerFrequency ++ leBytes 4 m.m_sampleRate ++
  leBytes 1 m.m_sampleBytes ++ leBytes 1 m.m_sampleBits ++
  leBytes 2 m.m_blockSize ++ leBytes 4 m.m_nbSamples ++
  leBytes 2 m.m_nbBlocks ++ leBytes 2 m.m_remainderSamples ++
  leBytes 2 m.m_nbCompleteBlocks ++ leBytes 4 m.m_tv_sec ++
  leBytes 4 m.m_tv_usec ++ leBytes 8 m.m_crc

/-- Reinterpret the leading bytes of a datagram as a MetaData record
(the receiver-side cast of the datagram buffer to MetaData). -/
def deserializeMeta (d : List Nat) : MetaData :=
  ⟨sliceNat d 0 8, sliceNat d 8 4, sliceNat d 12 1, sliceNat d 13 1,
   sliceNat d 14 2, sliceNat d 16 4, sliceNat d 20 2, sliceNat d 22 2,
   sliceNat d 24 2, sliceNat d 26 4, sliceNat d 30 4, sliceNat d 34 8⟩

/-- Member state of UDPSink (UDPSink.h members as used by UDPSink.cpp).
The two scratch buffers m_bufMeta and m_buf are heap arrays of m_udpSize
bytes; m_bufMetaTail models the bytes of m_bufMeta beyond the 42-byte
MetaData image (never written by the code, so they persist).  The LZ4
scratch pointer m_lz4Buffer is modelled as an allocation generation
counter: delete[] plus new[] yields a fresh value (increment). -/
structure UDPSinkState where
  m_udpSize : Nat
  m_centerFrequency : Nat
  m_sampleRate : Nat
  m_sampleBytes : Nat
  m_sampleBits : Nat
  m_nbSamples : Nat
  m_lz4MinInputSize : Nat
  m_lz4BufSize : Nat
  m_lz4Buffer : Nat
  m_bufMetaTail : List Nat
  m_buf : List Nat
  m_currentMeta : MetaData
deriving DecidableEq

/-- Bytes of process memory starting at the sample vector: in-bounds
indices read the frame bytes, out-of-bounds indices read the surrounding
heap (modelled by the function oob, since the C++ code reads m_udpSize
bytes from a block start regardless of how many sample bytes remain). -/
def datagramAt (bytes : List Nat) (oob : Nat → Nat) (off len : Nat) : List Nat :=
  (List.range len).map (fun k => bytes.getD (off + k) (oob (off + k)))

/-- Field assignments of UDPSink::write before the checksum (UDPSink.cpp
lines 57-71): the local samplesPerBlock is a uint16_t, the record fields
are filled from the sink members, the input vector size n and the
gettimeofday result; m_nbBlocks is set to the constant 1 (line 67). -/
def UDPSink.buildMeta0 (tvSec tvUsec : Nat) (st : UDPSinkState) (n : Nat) : MetaData :=
  let samplesPerBlock := st.m_udpSize / (2 * st.m_sampleBytes) % 65536
  { m_centerFrequency := st.m_centerFrequency % 2 ^ 64
    m_sampleRate := st.m_sampleRate % 2 ^ 32
    m_sampleBytes := st.m_sampleBytes % 256
    m_sampleBits := st.m_sampleBits % 256
    m_blockSize := st.m_udpSize % 65536
    m_nbSamples := n % 2 ^ 32
    m_nbBlocks := 1
    m_remainderSamples := n % samplesPerBlock % 65536
    m_nbCompleteBlocks := n / samplesPerBlock % 65536
    m_tv_sec := tvSec % 2 ^ 32
    m_tv_usec := tvUsec % 2 ^ 32
    m_crc := 0 }

/-- Header record of UDPSink::write (UDPSink.cpp lines 57-72): the fields
of buildMeta0, with the crc field then computed over
sizeof(MetaData) - 8 = 34 leading bytes of the record image (line 72).
crc is the checksum primitive. -/
def UDPSink.buildMeta (crc : List Nat → Nat) (tvSec tvUsec : Nat)
    (st : UDPSinkState) (n : Nat) : MetaData :=
  { UDPSink.buildMeta0 tvSec tvUsec st n with
    m_crc := crc ((serializeMeta (UDPSink.buildMeta0 tvSec tvUsec st n)).take 34) % 2 ^ 64 }

/-- Local variable samplesPerBlock of UDPSink::write (UDPSink.cpp line 57):
a uint16_t holding m_udpSize / (2 * m_sampleBytes). -/
def UDPSink.spbv (st : UDPSinkState) : Nat :=
  st.m_udpSize / (2 * st.m_sampleBytes) % 65536

/-- Byte span of one I/Q sample in the sample vector memory. Modelled from
the spec wire format (section 6): interleaved signed I/Q components,
bytesPerComponent bytes each, bytesPerComponent being the low nibble of
the sample encoding byte (the IQSample type itself is not under src/). -/
def UDPSink.stridev (st : UDPSinkState) : Nat := 2 * (st.m_sampleBytes % 16)

/-- Header datagram of UDPSink::write (UDPSink.cpp line 113): m_udpSize
bytes of m_bufMeta, whose leading 42 bytes hold the just-built record. -/
def UDPSink.headerD (crc : List Nat → Nat) (tvSec tvUsec : Nat)
    (st : UDPSinkState) (n : Nat) : List Nat :=
  (serializeMeta (UDPSink.buildMeta crc tvSec tvUsec st n) ++ st.m_bufMetaTail).take st.m_udpSize

/-- Payload datagram i of UDPSink::write (UDPSink.cpp line 117): m_udpSize
bytes of sample-vector memory starting at sample i * samplesPerBlock. -/
def UDPSink.payloadD (oob : Nat → Nat) (st : UDPSinkState)
    (samples : List (List Nat)) (i : Nat) : List Nat :=
  datagramAt samples.flatten oob (i * UDPSink.spbv st * UDPSink.stridev st) st.m_udpSize

/-- Byte count of the remainder memcpy (UDPSink.cpp line 122):
2 * m_remainderSamples * (m_sampleBytes & 0xF), fields of the record. -/
def UDPSink.copyLenD (md : MetaData) : Nat :=
  2 * md.m_remainderSamples * (md.m_sampleBytes % 16)

/-- Content of the scratch buffer m_buf after the remainder memcpy
(UDPSink.cpp line 122): the remainder sample bytes overwrite the leading
copyLen bytes, the rest of the buffer keeps its previous content. -/
def UDPSink.remBuf (oob : Nat → Nat) (st : UDPSinkState)
    (samples : List (List Nat)) (md : MetaData) : List Nat :=
  datagramAt samples.flatten oob
      (md.m_nbCompleteBlocks * UDPSink.spbv st * UDPSink.stridev st) (UDPSink.copyLenD md) ++
    st.m_buf.drop (UDPSink.copyLenD md)

/-- LZ4 scratch buffer resize block of UDPSink::write (UDPSink.cpp lines
74-91): only entered when the sample count changed since the last call;
delete[] plus new[] is modelled as bumping the allocation generation. -/
def UDPSink.lz4Update (st : UDPSinkState) (md : MetaData) : UDPSinkState :=
  if md.m_nbSamples = st.m_nbSamples then st
  else
    let bytesPerFrame := md.m_nbSamples * 2 * st.m_sampleBytes % 2 ^ 32
    let stA :=
      if 0 < st.m_lz4MinInputSize then
        let inputLZ4Size := (st.m_lz4MinInputSize / bytesPerFrame + 1) * bytesPerFrame % 2 ^ 32
        { st with m_lz4BufSize := LZ4_compressBound inputLZ4Size
                  m_lz4Buffer := st.m_lz4Buffer + 1 }
      else st
    { stA with m_nbSamples := md.m_nbSamples }

/-- Cached metadata update of UDPSink::write (UDPSink.cpp lines 93-111),
which gates logging only.  The MetaData operator== is not under src/ and
is modelled as structural equality. -/
def UDPSink.metaUpdate (st : UDPSinkState) (md : MetaData) : UDPSinkState :=
  if md = st.m_currentMeta then st else { st with m_currentMeta := md }

/-- Shallow embedding of UDPSink::write (UDPSink.cpp lines 53-125).
Input samples are given as the byte image of each I/Q sample (the vector
memory is the concatenation of them).  Returns the updated sink state and
the list of datagrams handed to m_socket.SendDataGram, in emission order;
every SendDataGram call sends exactly m_udpSize bytes from the given
address, reading neighbouring heap bytes (oob) when the vector or buffer
holds fewer.  gettimeofday is passed in as tvSec, tvUsec. -/
def UDPSink.write (crc : List Nat → Nat) (oob : Nat → Nat) (tvSec tvUsec : Nat)
    (st : UDPSinkState) (samples : List (List Nat)) :
    UDPSinkState × List (List Nat) :=
  let md := UDPSink.buildMeta crc tvSec tvUsec st samples.length
  let st2 := UDPSink.metaUpdate (UDPSink.lz4Update st md) md
  let headerD := UDPSink.headerD crc tvSec tvUsec st samples.length
  -- lines 120-124: remainder block sent from the m_buf scratch buffer
  if 0 < md.m_remainderSamples then
    let newBuf := UDPSink.remBuf oob st samples md
    ({ st2 with m_buf := newBuf },
      headerD :: ((List.range md.m_nbCompleteBlocks).map (UDPSink.payloadD oob st samples) ++
        [newBuf.take st.m_udpSize]))
  else
    (st2, headerD :: (List.range md.m_nbCompleteBlocks).map (UDPSink.payloadD oob st samples))

example :
    (UDPSink.buildMeta crcModel 0 0
      ⟨1024, 100000000, 48000, 2, 16, 0, 0, 0, 0, [], [],
        ⟨0,0,0,0,0,0,0,0,0,0,0,0⟩⟩ 2000).m_nbCompleteBlocks = 7 := by
  decide

example :
    (UDPSink.buildMeta crcModel 0 0
      ⟨1024, 100000000, 48000, 2, 16, 0, 0, 0, 0, [], [],
        ⟨0,0,0,0,0,0,0,0,0,0,0,0⟩⟩ 2000).m_remainderSamples = 208 := by
  decide

/-- Receiver reassembler state, following the spec state machine of
section 4.3: m_sync = false is AWAITING_HEADER; in COLLECTING the state
carries the adopted header, the reconstruction buffer (as bytes), the
blocks still expected and the byte offset for the next copy. -/
structure ReassemblerState where
  m_sync : Bool
  m_meta : MetaData
  m_rbuf : List Nat
  m_blocksRemaining : Nat
  m_nextOffset : Nat
deriving DecidableEq

/-- Initial reassembler state: AWAITING_HEADER, zeroed header. -/
def ReassemblerState.init : ReassemblerState :=
  ⟨false, ⟨0, 0, 0, 0, 0, 0, 0, 0, 0, 0, 0, 0⟩, [], 0, 0⟩

/-- Modelled from the spec: receiver accept operation, one call per arriving
datagram (the SDRdaemonBuffer::writeAndRead implementation is not under
src/; only its declaration in SDRdaemonBuffer.h is, so the behaviour is
taken from spec section 4.3).  The datagram is reinterpreted as a header
candidate; on checksum agreement it is adopted unconditionally (a fresh
reconstruction buffer of frameSampleCount * 2 * bytesPerComponent zero
bytes, blocks_remaining from blocksOf applied to the header); otherwise in
COLLECTING the payload bytes are copied at the current offset
(samplesPerBlock samples, or remainderSamples on the final expected block
of a frame with a remainder), and the finished buffer is emitted when no
block remains.  blocksOf abstracts how the expected block count is read
from the adopted header, so the literal spec reading and the amended one
share this body. -/
def SDRdaemonBuffer.acceptWith (blocksOf : MetaData → Nat) (crc : List Nat → Nat)
    (st : ReassemblerState) (d : List Nat) : ReassemblerState × Option (List Nat) :=
  let md := deserializeMeta d
  if crc (d.take 34) % 2 ^ 64 = md.m_crc then
    ({ m_sync := true, m_meta := md,
       m_rbuf := List.replicate (md.m_nbSamples * 2 * (md.m_sampleBytes % 16)) 0,
       m_blocksRemaining := blocksOf md, m_nextOffset := 0 }, none)
  else if st.m_sync then
    let bpc := st.m_meta.m_sampleBytes % 16
    let spb := st.m_meta.m_blockSize / (2 * bpc)
    let count :=
      if st.m_blocksRemaining = 1 ∧ 0 < st.m_meta.m_remainderSamples then
        st.m_meta.m_remainderSamples
      else spb
    let bytes := d.take (count * 2 * bpc)
    let buf2 := st.m_rbuf.take st.m_nextOffset ++ bytes ++
      st.m_rbuf.drop (st.m_nextOffset + bytes.length)
    if st.m_blocksRemaining ≤ 1 then
      ({ st with m_sync := false, m_rbuf := buf2, m_blocksRemaining := 0 }, some buf2)
    else
      ({ st with m_rbuf := buf2, m_blocksRemaining := st.m_blocksRemaining - 1,
                 m_nextOffset := st.m_nextOffset + bytes.length }, none)
  else (st, none)

/-- Modelled from the spec: the accept operation exactly as section 4.3
words it, with blocks_remaining initialised from the header blockCount
field. -/
def SDRdaemonBuffer.accept (crc : List Nat → Nat) (st : ReassemblerState)
    (d : List Nat) : ReassemblerState × Option (List Nat) :=
  SDRdaemonBuffer.acceptWith (fun md => md.m_nbBlocks) crc st d

/-- Amended accept operation: identical to SDRdaemonBuffer.accept except
that the expected block count is derived from the header as
completeBlockCount plus one when remainderSamples is positive, instead of
being read from the blockCount field (which the sender stores as the
constant 1). -/
def SDRdaemonBuffer.acceptFixed (crc : List Nat → Nat) (st : ReassemblerState)
    (d : List Nat) : ReassemblerState × Option (List Nat) :=
  SDRdaemonBuffer.acceptWith
    (fun md => md.m_nbCompleteBlocks + (if 0 < md.m_remainderSamples then 1 else 0))
    crc st d

/-- Feed a list of datagrams, in order, to an accept operation, collecting
every completed frame that is emitted. -/
def reassembleRun (acceptF : ReassemblerState → List Nat → ReassemblerState × Option (List Nat))
    (st : ReassemblerState) : List (List Nat) → ReassemblerState × List (List Nat)
  | [] => (st, [])
  | d :: ds =>
    let p := acceptF st d
    let r := reassembleRun acceptF p.1 ds
    (r.1, (match p.2 with | none => [] | some f => [f]) ++ r.2)

/-- C++ int value stored into a uint32_t: reduce modulo 2 ^ 32 (negative
values wrap). -/
def uint32OfInt (v : Int) : Nat := (v % 2 ^ 32).toNat

/-- C++ static_cast from uint32_t back to int (two's complement reread). -/
def int32OfUint32 (n : Nat) : Int :=
  if n < 2 ^ 31 then (n : Int) else (n : Int) - 2 ^ 32

/-- C++ double narrowed to uint32_t: truncation toward zero for the
non-negative values that occur here (a negative or overflowing value would
be undefined behaviour in the source and is clamped in the model). -/
def truncUint32OfRat (q : Rat) : Nat := (max q.floor 0).toNat % 2 ^ 32

/-- Key=value configuration request, as the parsekv map restricted to the
keys the configure operations look up.  A present key carries the numeric
value that atoi (for the integer keys) or strtod (for ppmp and ppmn, where
presence also means the conversion succeeded) yields; the special string
value list of the gain and rate keys is not representable here, since the
claims are about numeric values. -/
structure ConfigMap where
  freq : Option Int
  srate : Option Int
  lgain : Option Int
  mgain : Option Int
  vgain : Option Int
  antbias : Option Int
  lagc : Option Int
  magc : Option Int
  ppmp : Option Rat
  ppmn : Option Rat
  fcpos : Option Int
  decim : Option Int
deriving DecidableEq

/-- Member state of AirspySource (the members AirspySource.cpp reads and
writes; m_confFreq, m_fcPos and m_decim live in the DeviceSource base
class, whose source is not under src/ but whose use here is fully
determined by AirspySource.cpp).  m_dev models whether the device handle
is non-null; m_ppm is the float member as an exact rational. -/
structure AirspyState where
  m_dev : Bool
  m_sampleRate : Nat
  m_frequency : Nat
  m_ppm : Rat
  m_fcPos : Int
  m_decim : Int
  m_confFreq : Nat
  m_lnaGain : Int
  m_mixGain : Int
  m_vgaGain : Int
  m_biasAnt : Bool
  m_lnaAGC : Bool
  m_mixAGC : Bool
  m_srates : List Int
  m_error : String
deriving DecidableEq

/-- Static LNA gain list of AirspySource (AirspySource.cpp line 33). -/
def AirspySource.m_lgains : List Int :=
  [0, 1, 2, 3, 4, 5, 6, 7, 8, 9, 10, 11, 12, 13, 14]

/-- Static mixer gain list of AirspySource (AirspySource.cpp line 34). -/
def AirspySource.m_mgains : List Int :=
  [0, 1, 2, 3, 4, 5, 6, 7, 8, 9, 10, 11, 12, 13, 14, 15]

/-- Static VGA gain list of AirspySource (AirspySource.cpp line 35). -/
def AirspySource.m_vgains : List Int :=
  [0, 1, 2, 3, 4, 5, 6, 7, 8, 9, 10, 11, 12, 13, 14, 15]

/-- AirspySource::configure(changeFlags, ...) (AirspySource.cpp lines
241-418).  The airspy_set_* vendor calls belong to the excluded hardware
collaborator and are modelled as returning AIRSPY_SUCCESS; the returned
string list records which device setters were invoked, in order.  Returns
the success flag, the new state and that call trace. -/
def AirspySource.configureFlags (st0 : AirspyState) (changeFlags : Nat)
    (sampleRateIndex : Nat) (frequency : Nat) (biasAnt lnaGain mixGain vgaGain
    lnaAGC mixAGC : Int) : Bool × AirspyState × List String := Id.run do
  if st0.m_dev = false then
    return (false, st0, [])
  let mut st := st0
  let mut calls : List String := []
  if changeFlags.testBit 0 then
    st := { st with m_frequency := frequency }
    calls := calls ++ ["airspy_set_freq"]
  if changeFlags.testBit 1 then
    calls := calls ++ ["airspy_set_samplerate"]
    st := { st with m_sampleRate := uint32OfInt (st.m_srates.getD sampleRateIndex 0) }
  if changeFlags.testBit 2 then
    st := { st with m_lnaGain := lnaGain }
    calls := calls ++ ["airspy_set_lna_gain"]
  if changeFlags.testBit 3 then
    st := { st with m_mixGain := mixGain }
    calls := calls ++ ["airspy_set_mixer_gain"]
  if changeFlags.testBit 4 then
    st := { st with m_vgaGain := vgaGain }
    calls := calls ++ ["airspy_set_vga_gain"]
  if changeFlags.testBit 5 then
    st := { st with m_biasAnt := biasAnt ≠ 0 }
    calls := calls ++ ["airspy_set_rf_bias"]
  if changeFlags.testBit 6 then
    st := { st with m_lnaAGC := lnaAGC ≠ 0 }
    calls := calls ++ ["airspy_set_lna_agc"]
  if changeFlags.testBit 7 then
    st := { st with m_mixAGC := mixAGC ≠ 0 }
    calls := calls ++ ["airspy_set_mixer_agc"]
  return (true, st, calls)

/-- AirspySource::configure(parsekv map) (AirspySource.cpp lines 420-654):
parses and validates each recognised key in source order, with the early
false returns of the source; on survival computes the tuner frequency and
delegates to the flags overload. -/
def AirspySource.configure (st0 : AirspyState) (m : ConfigMap) :
    Bool × AirspyState × List String := Id.run do
  let mut st := st0
  let mut sampleRateIndex : Nat := 0
  let mut frequency : Nat := st.m_confFreq
  let mut lnaGain : Int := 8
  let mut mixGain : Int := 8
  let mut vgaGain : Int := 0
  let mut antBias : Int := 0
  let mut lnaAGC : Int := 0
  let mut mixAGC : Int := 0
  let mut fcpos : Int := 2
  let mut changeFlags : Nat := 0
  -- lines 434-447: freq
  match m.freq with
  | some v =>
    frequency := uint32OfInt v
    if frequency < 24000000 ∨ 1800000000 < frequency then
      return (false, { st with m_error := "Invalid frequency" }, [])
    changeFlags := changeFlags ||| 1
  | none => pure ()
  -- lines 449-486: srate (m_sampleRate is written before the validity check)
  match m.srate with
  | some v =>
    st := { st with m_sampleRate := uint32OfInt v }
    match st.m_srates.findIdx? (fun r => r == int32OfUint32 st.m_sampleRate) with
    | some i =>
      sampleRateIndex := i
      changeFlags := changeFlags ||| 2
      if fcpos ≠ 2 then
        changeFlags := changeFlags ||| 1
    | none =>
      return (false, { st with m_error := "Invalid sample rate", m_sampleRate := 0 }, [])
  | none => pure ()
  -- lines 488-509: lgain
  match m.lgain with
  | some v =>
    lnaGain := v
    if lnaGain ∉ AirspySource.m_lgains then
      return (false, { st with m_error := "LNA gain not supported" }, [])
    changeFlags := changeFlags ||| 4
  | none => pure ()
  -- lines 511-532: mgain
  match m.mgain with
  | some v =>
    mixGain := v
    if mixGain ∉ AirspySource.m_mgains then
      return (false, { st with m_error := "Mixer gain not supported" }, [])
    changeFlags := changeFlags ||| 8
  | none => pure ()
  -- lines 534-554: vgain
  match m.vgain with
  | some v =>
    vgaGain := v
    if vgaGain ∉ AirspySource.m_vgains then
      return (false, { st with m_error := "VGA gain not supported" }, [])
    changeFlags := changeFlags ||| 16
  | none => pure ()
  -- lines 556-575: antbias, lagc, magc
  match m.antbias with
  | some v =>
    antBias := v
    changeFlags := changeFlags ||| 32
  | none => pure ()
  match m.lagc with
  | some v =>
    lnaAGC := v
    changeFlags := changeFlags ||| 64
  | none => pure ()
  match m.magc with
  | some v =>
    mixAGC := v
    changeFlags := changeFlags ||| 128
  | none => pure ()
  -- lines 577-602: ppmp, else ppmn (presence means strtod succeeded)
  match m.ppmp with
  | some p =>
    st := { st with m_ppm := p }
    changeFlags := changeFlags ||| 1
  | none =>
    match m.ppmn with
    | some p =>
      st := { st with m_ppm := -p }
      changeFlags := changeFlags ||| 1
    | none => pure ()
  -- lines 604-621: fcpos
  match m.fcpos with
  | some v =>
    if v < 0 ∨ 2 < v then
      return (false, { st with m_error := "Invalid center frequency position" }, [])
    st := { st with m_fcPos := v }
    changeFlags := changeFlags ||| 1
  | none => pure ()
  -- lines 623-638: decim
  match m.decim with
  | some v =>
    if v < 0 ∨ 6 < v then
      return (false, { st with m_error := "Invalid log2 decimation factor" }, [])
    st := { st with m_decim := v }
  | none => pure ()
  -- lines 640-653: commit m_confFreq, tuner frequency, delegate
  st := { st with m_confFreq := frequency }
  let srateForTuner : Int := st.m_srates.getD sampleRateIndex 0
  let tuner0 : Rat :=
    if st.m_fcPos = 0 then (frequency : Rat) + (1 / 4) * (srateForTuner : Rat)
    else if st.m_fcPos = 1 then (frequency : Rat) - (1 / 4) * (srateForTuner : Rat)
    else (frequency : Rat)
  let tuner : Rat := tuner0 + tuner0 * st.m_ppm * (1 / 1000000)
  return AirspySource.configureFlags st changeFlags sampleRateIndex
    (truncUint32OfRat tuner) antBias lnaGain mixGain vgaGain lnaAGC mixAGC

/-- AirspySource::get_sample_rate (AirspySource.cpp lines 220-223). -/
def AirspySource.get_sample_rate (st : AirspyState) : Nat := st.m_sampleRate

/-- Member state of AirspyHFSource (AirspyHFSource.cpp plus the
DeviceSource base members it uses). -/
structure AirspyHFState where
  m_dev : Bool
  m_sampleRate : Nat
  m_frequency : Nat
  m_ppm : Rat
  m_decim : Int
  m_confFreq : Nat
  m_srates : List Int
  m_error : String
deriving DecidableEq

/-- AirspyHFSource::configure(changeFlags, ...) (AirspyHFSource.cpp lines
162-276; the HF AGC, attenuator and LNA blocks are commented out in the
source and therefore absent here).  Vendor calls modelled as succeeding,
recorded in the returned trace. -/
def AirspyHFSource.configureFlags (st0 : AirspyHFState) (changeFlags : Nat)
    (sampleRateIndex : Nat) (frequency : Nat) :
    Bool × AirspyHFState × List String := Id.run do
  if st0.m_dev = false then
    return (false, st0, [])
  let mut st := st0
  let mut calls : List String := []
  if changeFlags.testBit 0 then
    st := { st with m_frequency := frequency }
    calls := calls ++ ["airspyhf_set_freq"]
  if changeFlags.testBit 1 then
    calls := calls ++ ["airspyhf_set_samplerate"]
    st := { st with m_sampleRate := uint32OfInt (st.m_srates.getD sampleRateIndex 0) }
  return (true, st, calls)

/-- AirspyHFSource::configure(parsekv map) (AirspyHFSource.cpp lines
278-409): freq and srate blocks as in AirspySource (same bounds, same
early-exit order, m_sampleRate also written before the validity check),
then ppmp/ppmn and decim; the tuner frequency has no fcpos adjustment. -/
def AirspyHFSource.configure (st0 : AirspyHFState) (m : ConfigMap) :
    Bool × AirspyHFState × List String := Id.run do
  let mut st := st0
  let mut sampleRateIndex : Nat := 0
  let mut frequency : Nat := st.m_confFreq
  let mut changeFlags : Nat := 0
  -- lines 288-301: freq
  match m.freq with
  | some v =>
    frequency := uint32OfInt v
    if frequency < 24000000 ∨ 1800000000 < frequency then
      return (false, { st with m_error := "Invalid frequency" }, [])
    changeFlags := changeFlags ||| 1
  | none => pure ()
  -- lines 303-335: srate
  match m.srate with
  | some v =>
    st := { st with m_sampleRate := uint32OfInt v }
    match st.m_srates.findIdx? (fun r => r == int32OfUint32 st.m_sampleRate) with
    | some i =>
      sampleRateIndex := i
      changeFlags := changeFlags ||| 2
    | none =>
      return (false, { st with m_error := "Invalid sample rate", m_sampleRate := 0 }, [])
  | none => pure ()
  -- lines 358-383: ppmp, else ppmn
  match m.ppmp with
  | some p =>
    st := { st with m_ppm := p }
    changeFlags := changeFlags ||| 1
  | none =>
    match m.ppmn with
    | some p =>
      st := { st with m_ppm := -p }
      changeFlags := changeFlags ||| 1
    | none => pure ()
  -- lines 385-400: decim
  match m.decim with
  | some v =>
    if v < 0 ∨ 6 < v then
      return (false, { st with m_error := "Invalid log2 decimation factor" }, [])
    st := { st with m_decim := v }
  | none => pure ()
  -- lines 402-408: commit m_confFreq, tuner frequency, delegate
  st := { st with m_confFreq := frequency }
  let tuner : Rat := (frequency : Rat) + (frequency : Rat) * st.m_ppm * (1 / 1000000)
  return AirspyHFSource.configureFlags st changeFlags sampleRateIndex
    (truncUint32OfRat tuner)

/-- AirspyHFSource::get_sample_rate (AirspyHFSource.cpp lines 143-146). -/
def AirspyHFSource.get_sample_rate (st : AirspyHFState) : Nat := st.m_sampleRate

/-! Lemmas about uniform-width sample lists and memory slices. -/

theorem datagramAt_length (bytes : List Nat) (oob : Nat → Nat) (off len : Nat) :
    (datagramAt bytes oob off len).length = len := by
  simp [datagramAt]

theorem datagramAt_take (bytes : List Nat) (oob : Nat → Nat) (off len m : Nat)
    (h : m ≤ len) :
    (datagramAt bytes oob off len).take m = datagramAt bytes oob off m := by
  simp [datagramAt, ← List.map_take, List.take_range, Nat.min_eq_left h]

theorem datagramAt_in_range (bytes : List Nat) (oob : Nat → Nat) (off len : Nat)
    (h : off + len ≤ bytes.length) :
    datagramAt bytes oob off len = (bytes.drop off).take len := by
  apply List.ext_getElem
  · simp [datagramAt]
    omega
  · intro i h1 h2
    simp only [datagramAt, List.getElem_map, List.getElem_range]
    rw [List.getD_eq_getElem bytes _ (by simp [datagramAt] at h1; omega),
      List.getElem_take, List.getElem_drop]

theorem flatten_length_uniform (w : Nat) (l : List (List Nat))
    (h : ∀ s ∈ l, s.length = w) : l.flatten.length = w * l.length := by
  induction l with
  | nil => simp
  | cons a t ih =>
    simp only [List.flatten_cons, List.length_append, List.length_cons]
    rw [h a (List.mem_cons_self a t), ih (fun s hs => h s (List.mem_cons_of_mem a hs))]
    ring

theorem flatten_take_uniform (w : Nat) :
    ∀ (k : Nat) (l : List (List Nat)), (∀ s ∈ l, s.length = w) →
      l.flatten.take (w * k) = (l.take k).flatten := by
  intro k
  induction k with
  | zero => simp
  | succ k ih =>
    intro l h
    match l with
    | [] => simp
    | a :: t =>
      have ha : a.length = w := h a (List.mem_cons_self a t)
      simp only [List.flatten_cons, List.take_succ_cons]
      have hw : w * (k + 1) = a.length + w * k := by rw [ha]; ring
      rw [hw, List.take_append, ih t (fun s hs => h s (List.mem_cons_of_mem a hs))]

theorem flatten_drop_uniform (w : Nat) :
    ∀ (k : Nat) (l : List (List Nat)), (∀ s ∈ l, s.length = w) →
      l.flatten.drop (w * k) = (l.drop k).flatten := by
  intro k
  induction k with
  | zero => simp
  | succ k ih =>
    intro l h
    match l with
    | [] => simp
    | a :: t =>
      have ha : a.length = w := h a (List.mem_cons_self a t)
      simp only [List.flatten_cons, List.drop_succ_cons]
      have hw : w * (k + 1) = a.length + w * k := by rw [ha]; ring
      rw [hw, List.drop_append, ih t (fun s hs => h s (List.mem_cons_of_mem a hs))]

theorem flatten_slice_uniform (w k j : Nat) (l : List (List Nat))
    (h : ∀ s ∈ l, s.length = w) :
    (l.flatten.drop (w * k)).take (w * j) = ((l.drop k).take j).flatten := by
  rw [flatten_drop_uniform w k l h,
    flatten_take_uniform w j (l.drop k) (fun s hs => h s (List.mem_of_mem_drop hs))]

/-! Lemmas about the byte-level serialization. -/

@[simp] theorem leBytes_length (w v : Nat) : (leBytes w v).length = w := by
  induction w generalizing v with
  | zero => simp [leBytes]
  | succ w ih => simp [leBytes, ih]

theorem leNat_leBytes (w v : Nat) : leNat (leBytes w v) = v % 256 ^ w := by
  induction w generalizing v with
  | zero => simp [leBytes, leNat, Nat.mod_one]
  | succ w ih =>
    have h : (256 : Nat) ^ (w + 1) = 256 * 256 ^ w := by ring
    simp only [leBytes, leNat, List.foldr_cons]
    rw [show List.foldr (fun b acc => b % 256 + 256 * acc) 0 (leBytes w (v / 256)) =
          leNat (leBytes w (v / 256)) from rfl, ih, h, Nat.mod_mul]
    generalize v / 256 % 256 ^ w = X
    omega

theorem leNat_leBytes_of_lt {w v : Nat} (h : v < 256 ^ w) : leNat (leBytes w v) = v := by
  rw [leNat_leBytes, Nat.mod_eq_of_lt h]

theorem sliceNat_here (w v : Nat) (rest : List Nat) :
    sliceNat (leBytes w v ++ rest) 0 w = v % 256 ^ w := by
  have ht : (leBytes w v ++ rest).take w = leBytes w v := by
    have h2 := List.take_left (leBytes w v) rest
    rwa [leBytes_length] at h2
  simp only [sliceNat, List.drop_zero, ht]
  exact leNat_leBytes w v

theorem sliceNat_skip (w v o w2 : Nat) (rest : List Nat) (h : w ≤ o) :
    sliceNat (leBytes w v ++ rest) o w2 = sliceNat rest (o - w) w2 := by
  have h2 : o = (leBytes w v).length + (o - w) := by
    rw [leBytes_length]; omega
  rw [sliceNat, sliceNat]
  conv_lhs => rw [h2, List.drop_append]

theorem serializeMeta_length (m : MetaData) : (serializeMeta m).length = 42 := by
  simp [serializeMeta]

theorem take34_append_indep (A L1 L2 : List Nat) (h : A.length = 34) :
    (A ++ L1).take 34 = (A ++ L2).take 34 := by
  rw [← h, List.take_left, List.take_left]

/-- Bytes before the checksum field do not depend on the checksum field. -/
theorem serializeMeta_take34_crc (m : MetaData) (c : Nat) :
    (serializeMeta { m with m_crc := c }).take 34 = (serializeMeta m).take 34 := by
  simp only [serializeMeta]
  exact take34_append_indep _ _ _ (by simp)

/-- Every field of a record built from in-range values survives the
round trip through the packed byte image, whatever bytes follow it. -/
theorem deserializeMeta_serializeMeta (m : MetaData) (rest : List Nat)
    (h1 : m.m_centerFrequency < 256 ^ 8) (h2 : m.m_sampleRate < 256 ^ 4)
    (h3 : m.m_sampleBytes < 256 ^ 1) (h4 : m.m_sampleBits < 256 ^ 1)
    (h5 : m.m_blockSize < 256 ^ 2) (h6 : m.m_nbSamples < 256 ^ 4)
    (h7 : m.m_nbBlocks < 256 ^ 2) (h8 : m.m_remainderSamples < 256 ^ 2)
    (h9 : m.m_nbCompleteBlocks < 256 ^ 2) (h10 : m.m_tv_sec < 256 ^ 4)
    (h11 : m.m_tv_usec < 256 ^ 4) (h12 : m.m_crc < 256 ^ 8) :
    deserializeMeta (serializeMeta m ++ rest) = m := by
  obtain ⟨cf, sr, sb, bits, bs, ns, nb, rem, ncb, sec, usec, crc⟩ := m
  have g1 : cf < 256 ^ 8 := h1
  have g2 : sr < 256 ^ 4 := h2
  have g3 : sb < 256 ^ 1 := h3
  have g4 : bits < 256 ^ 1 := h4
  have g5 : bs < 256 ^ 2 := h5
  have g6 : ns < 256 ^ 4 := h6
  have g7 : nb < 256 ^ 2 := h7
  have g8 : rem < 256 ^ 2 := h8
  have g9 : ncb < 256 ^ 2 := h9
  have g10 : sec < 256 ^ 4 := h10
  have g11 : usec < 256 ^ 4 := h11
  have g12 : crc < 256 ^ 8 := h12
  simp only [deserializeMeta, serializeMeta, List.append_assoc, MetaData.mk.injEq]
  refine ⟨?_, ?_, ?_, ?_, ?_, ?_, ?_, ?_, ?_, ?_, ?_, ?_⟩ <;>
    simp [sliceNat_skip, sliceNat_here, Nat.mod_eq_of_lt g1, Nat.mod_eq_of_lt g2,
      Nat.mod_eq_of_lt g3, Nat.mod_eq_of_lt g4, Nat.mod_eq_of_lt g5, Nat.mod_eq_of_lt g6,
      Nat.mod_eq_of_lt g7, Nat.mod_eq_of_lt g8, Nat.mod_eq_of_lt g9, Nat.mod_eq_of_lt g10,
      Nat.mod_eq_of_lt g11, Nat.mod_eq_of_lt g12] <;> omega

/-! Field-level facts about the header builder and the state updates. -/

theorem buildMeta_nbSamples (crc : List Nat → Nat) (t1 t2 : Nat) (st : UDPSinkState)
    (n : Nat) : (UDPSink.buildMeta crc t1 t2 st n).m_nbSamples = n % 2 ^ 32 := rfl

theorem buildMeta_nbBlocks (crc : List Nat → Nat) (t1 t2 : Nat) (st : UDPSinkState)
    (n : Nat) : (UDPSink.buildMeta crc t1 t2 st n).m_nbBlocks = 1 := rfl

theorem buildMeta_sampleBytes (crc : List Nat → Nat) (t1 t2 : Nat) (st : UDPSinkState)
    (n : Nat) : (UDPSink.buildMeta crc t1 t2 st n).m_sampleBytes = st.m_sampleBytes % 256 := rfl

theorem buildMeta_blockSize (crc : List Nat → Nat) (t1 t2 : Nat) (st : UDPSinkState)
    (n : Nat) : (UDPSink.buildMeta crc t1 t2 st n).m_blockSize = st.m_udpSize % 65536 := rfl

theorem buildMeta_remainderSamples (crc : List Nat → Nat) (t1 t2 : Nat)
    (st : UDPSinkState) (n : Nat) :
    (UDPSink.buildMeta crc t1 t2 st n).m_remainderSamples = n % UDPSink.spbv st % 65536 := rfl

theorem buildMeta_nbCompleteBlocks (crc : List Nat → Nat) (t1 t2 : Nat)
    (st : UDPSinkState) (n : Nat) :
    (UDPSink.buildMeta crc t1 t2 st n).m_nbCompleteBlocks = n / UDPSink.spbv st % 65536 := rfl

theorem buildMeta_rem_eq (crc : List Nat → Nat) (t1 t2 : Nat) (st : UDPSinkState)
    (n : Nat) (h : 0 < UDPSink.spbv st) :
    (UDPSink.buildMeta crc t1 t2 st n).m_remainderSamples = n % UDPSink.spbv st := by
  rw [buildMeta_remainderSamples]
  have h1 : n % UDPSink.spbv st < UDPSink.spbv st := Nat.mod_lt n h
  have h2 : UDPSink.spbv st < 65536 := Nat.mod_lt _ (by norm_num)
  · exact Nat.mod_eq_of_lt (by omega)

theorem buildMeta_sampleBytes_nib (crc : List Nat → Nat) (t1 t2 : Nat)
    (st : UDPSinkState) (n : Nat) :
    (UDPSink.buildMeta crc t1 t2 st n).m_sampleBytes % 16 = st.m_sampleBytes % 16 := by
  rw [buildMeta_sampleBytes]
  exact Nat.mod_mod_of_dvd _ (by norm_num)

theorem spbv_mul_stridev_le (st : UDPSinkState) :
    UDPSink.spbv st * UDPSink.stridev st ≤ st.m_udpSize := by
  have h1 : UDPSink.spbv st ≤ st.m_udpSize / (2 * st.m_sampleBytes) :=
    Nat.mod_le _ _
  have h2 : UDPSink.stridev st ≤ 2 * st.m_sampleBytes := by
    unfold UDPSink.stridev
    have := Nat.mod_le st.m_sampleBytes 16
    omega
  calc UDPSink.spbv st * UDPSink.stridev st
      ≤ st.m_udpSize / (2 * st.m_sampleBytes) * (2 * st.m_sampleBytes) :=
        Nat.mul_le_mul h1 h2
    _ ≤ st.m_udpSize := Nat.div_mul_le_self _ _

theorem copyLenD_le (crc : List Nat → Nat) (t1 t2 : Nat) (st : UDPSinkState)
    (n : Nat) (h : 0 < UDPSink.spbv st) :
    UDPSink.copyLenD (UDPSink.buildMeta crc t1 t2 st n) ≤ st.m_udpSize := by
  unfold UDPSink.copyLenD
  rw [buildMeta_rem_eq crc t1 t2 st n h, buildMeta_sampleBytes_nib]
  have h1 : n % UDPSink.spbv st < UDPSink.spbv st := Nat.mod_lt n h
  calc 2 * (n % UDPSink.spbv st) * (st.m_sampleBytes % 16)
      = (n % UDPSink.spbv st) * UDPSink.stridev st := by unfold UDPSink.stridev; ring
    _ ≤ UDPSink.spbv st * UDPSink.stridev st := Nat.mul_le_mul_right _ (by omega)
    _ ≤ st.m_udpSize := spbv_mul_stridev_le st

theorem lz4Update_m_buf (st : UDPSinkState) (md : MetaData) :
    (UDPSink.lz4Update st md).m_buf = st.m_buf := by
  unfold UDPSink.lz4Update
  split <;> (try split) <;> rfl

theorem lz4Update_m_nbSamples (st : UDPSinkState) (md : MetaData) :
    (UDPSink.lz4Update st md).m_nbSamples = md.m_nbSamples := by
  unfold UDPSink.lz4Update
  split
  · omega
  · split <;> rfl

theorem lz4Update_m_udpSize (st : UDPSinkState) (md : MetaData) :
    (UDPSink.lz4Update st md).m_udpSize = st.m_udpSize := by
  unfold UDPSink.lz4Update
  split <;> (try split) <;> rfl

theorem lz4Update_m_sampleBytes (st : UDPSinkState) (md : MetaData) :
    (UDPSink.lz4Update st md).m_sampleBytes = st.m_sampleBytes := by
  unfold UDPSink.lz4Update
  split <;> (try split) <;> rfl

theorem lz4Update_m_bufMetaTail (st : UDPSinkState) (md : MetaData) :
    (UDPSink.lz4Update st md).m_bufMetaTail = st.m_bufMetaTail := by
  unfold UDPSink.lz4Update
  split <;> (try split) <;> rfl

theorem lz4Update_unchanged (st : UDPSinkState) (md : MetaData)
    (h : md.m_nbSamples = st.m_nbSamples) : UDPSink.lz4Update st md = st := by
  unfold UDPSink.lz4Update
  rw [if_pos h]

theorem lz4Update_lz4_of_eq (st : UDPSinkState) (md : MetaData)
    (h : md.m_nbSamples = st.m_nbSamples) :
    (UDPSink.lz4Update st md).m_lz4Buffer = st.m_lz4Buffer ∧
    (UDPSink.lz4Update st md).m_lz4BufSize = st.m_lz4BufSize := by
  rw [lz4Update_unchanged st md h]
  exact ⟨rfl, rfl⟩

theorem metaUpdate_m_buf (st : UDPSinkState) (md : MetaData) :
    (UDPSink.metaUpdate st md).m_buf = st.m_buf := by
  unfold UDPSink.metaUpdate
  split <;> rfl

theorem metaUpdate_m_nbSamples (st : UDPSinkState) (md : MetaData) :
    (UDPSink.metaUpdate st md).m_nbSamples = st.m_nbSamples := by
  unfold UDPSink.metaUpdate
  split <;> rfl

theorem metaUpdate_m_lz4Buffer (st : UDPSinkState) (md : MetaData) :
    (UDPSink.metaUpdate st md).m_lz4Buffer = st.m_lz4Buffer := by
  unfold UDPSink.metaUpdate
  split <;> rfl

theorem metaUpdate_m_lz4BufSize (st : UDPSinkState) (md : MetaData) :
    (UDPSink.metaUpdate st md).m_lz4BufSize = st.m_lz4BufSize := by
  unfold UDPSink.metaUpdate
  split <;> rfl

theorem payloadD_take_slice (oob : Nat → Nat) (st : UDPSinkState)
    (samples : List (List Nat)) (i : Nat)
    (hsb : ∀ s ∈ samples, s.length = UDPSink.stridev st)
    (hin : (i + 1) * UDPSink.spbv st ≤ samples.length) :
    (UDPSink.payloadD oob st samples i).take (UDPSink.spbv st * UDPSink.stridev st) =
      ((samples.drop (i * UDPSink.spbv st)).take (UDPSink.spbv st)).flatten := by
  rw [UDPSink.payloadD, datagramAt_take _ _ _ _ _ (spbv_mul_stridev_le st),
    datagramAt_in_range]
  · have h1 : i * UDPSink.spbv st * UDPSink.stridev st =
        UDPSink.stridev st * (i * UDPSink.spbv st) := by ring
    have h2 : UDPSink.spbv st * UDPSink.stridev st =
        UDPSink.stridev st * UDPSink.spbv st := by ring
    rw [h1, h2, flatten_slice_uniform _ _ _ _ hsb]
  · rw [flatten_length_uniform _ _ hsb]
    calc i * UDPSink.spbv st * UDPSink.stridev st + UDPSink.spbv st * UDPSink.stridev st
        = UDPSink.stridev st * ((i + 1) * UDPSink.spbv st) := by ring
      _ ≤ UDPSink.stridev st * samples.length := Nat.mul_le_mul_left _ hin

/-! Structure of a single write call. -/

theorem write_fst_m_nbSamples (crc : List Nat → Nat) (oob : Nat → Nat) (t1 t2 : Nat)
    (st : UDPSinkState) (samples : List (List Nat)) :
    (UDPSink.write crc oob t1 t2 st samples).1.m_nbSamples = samples.length % 2 ^ 32 := by
  simp only [UDPSink.write]
  split <;>
    simp [metaUpdate_m_nbSamples, lz4Update_m_nbSamples, buildMeta_nbSamples]

theorem write_fst_m_lz4Buffer (crc : List Nat → Nat) (oob : Nat → Nat) (t1 t2 : Nat)
    (st : UDPSinkState) (samples : List (List Nat)) :
    (UDPSink.write crc oob t1 t2 st samples).1.m_lz4Buffer =
      (UDPSink.lz4Update st (UDPSink.buildMeta crc t1 t2 st samples.length)).m_lz4Buffer := by
  simp only [UDPSink.write]
  split <;> simp [metaUpdate_m_lz4Buffer]

theorem write_fst_m_lz4BufSize (crc : List Nat → Nat) (oob : Nat → Nat) (t1 t2 : Nat)
    (st : UDPSinkState) (samples : List (List Nat)) :
    (UDPSink.write crc oob t1 t2 st samples).1.m_lz4BufSize =
      (UDPSink.lz4Update st (UDPSink.buildMeta crc t1 t2 st samples.length)).m_lz4BufSize := by
  simp only [UDPSink.write]
  split <;> simp [metaUpdate_m_lz4BufSize]

/-- Concrete sink state for Scenario A of the spec: datagramSize 1024 and
two bytes per I/Q component. -/
def scenarioAState : UDPSinkState :=
  ⟨1024, 435000000, 5000000, 2, 16, 0, 0, 0, 0, List.replicate 982 0, List.replicate 1024 0,
    ⟨0, 0, 0, 0, 0, 0, 0, 0, 0, 0, 0, 0⟩⟩

/-- Header record the packetizer builds in Scenario A (2000 samples). -/
def scenarioAMeta : MetaData := UDPSink.buildMeta crcModel 3 4 scenarioAState 2000

/-- Header record built for a frame of 2 ^ 24 samples, whose complete
block count overflows the 16-bit field. -/
def overflowMeta : MetaData := UDPSink.buildMeta crcModel 3 4 scenarioAState 16777216

/-- Claim C1, counterexample: in Scenario A (datagramSize 1024,
bytesPerComponent 2, 2000 samples) the emitted header has blockCount 1,
not completeBlockCount + 1 = 8: UDPSink.cpp line 67 stores the constant 1
in m_nbBlocks. -/
theorem claim1_counterexample :
    ¬ (scenarioAMeta.m_nbBlocks = scenarioAMeta.m_nbCompleteBlocks +
        (if 0 < scenarioAMeta.m_remainderSamples then 1 else 0)) ∧
    scenarioAMeta.m_nbBlocks = 1 ∧ scenarioAMeta.m_nbCompleteBlocks = 7 ∧
    scenarioAMeta.m_remainderSamples = 208 := by
  refine ⟨by decide, by decide, by decide, by decide⟩

/-- Claim C1, amended: the header's blockCount field is the constant 1 on
every call (the field counts hardware blocks per frame, one per write
call), while completeBlockCount and remainderSamples carry the datagram
accounting; in Scenario A completeBlockCount + 1 = 8 but blockCount = 1. -/
theorem claim1_amended :
    (∀ (crc : List Nat → Nat) (t1 t2 : Nat) (st : UDPSinkState) (n : Nat),
      (UDPSink.buildMeta crc t1 t2 st n).m_nbBlocks = 1) ∧
    scenarioAMeta.m_nbCompleteBlocks + (if 0 < scenarioAMeta.m_remainderSamples then 1 else 0) = 8 ∧
    scenarioAMeta.m_nbBlocks = 1 := by
  exact ⟨fun _ _ _ _ _ => rfl, by decide, by decide⟩

/-- Claim C5, counterexample: for a frame of 2 ^ 24 samples at
datagramSize 1024 and bytesPerComponent 2 the 16-bit completeBlockCount
field wraps to 0, so frameSampleCount no longer equals
completeBlockCount * samplesPerBlock + remainderSamples. -/
theorem claim5_counterexample :
    ¬ (overflowMeta.m_nbSamples = overflowMeta.m_nbCompleteBlocks *
        (overflowMeta.m_blockSize / (2 * (overflowMeta.m_sampleBytes % 16))) +
        overflowMeta.m_remainderSamples) := by
  decide

/-- Claim C5, amended: the identity frameSampleCount =
completeBlockCount * samplesPerBlock + remainderSamples holds with
samplesPerBlock computed as the code does, datagramSize / (2 *
sampleEncoding) over the full encoding byte, provided frameSampleCount
fits its 32-bit field and completeBlockCount its 16-bit field; when the
indicator (high) nibble of the encoding byte is clear and datagramSize
fits 16 bits, that samplesPerBlock coincides with the claim's
datagramSize / (2 * bytesPerComponent). -/
theorem claim5_amended (crc : List Nat → Nat) (t1 t2 : Nat) (st : UDPSinkState)
    (n : Nat) (hspb : 0 < UDPSink.spbv st) (hn : n < 2 ^ 32)
    (htr : n / UDPSink.spbv st < 65536) :
    (UDPSink.buildMeta crc t1 t2 st n).m_nbSamples =
      (UDPSink.buildMeta crc t1 t2 st n).m_nbCompleteBlocks * UDPSink.spbv st +
      (UDPSink.buildMeta crc t1 t2 st n).m_remainderSamples ∧
    (st.m_sampleBytes < 16 → st.m_udpSize < 65536 →
      UDPSink.spbv st = st.m_udpSize / (2 * (st.m_sampleBytes % 16))) := by
  constructor
  · rw [buildMeta_nbSamples, buildMeta_nbCompleteBlocks, buildMeta_rem_eq crc t1 t2 st n hspb,
      Nat.mod_eq_of_lt hn, Nat.mod_eq_of_lt htr]
    have h := Nat.div_add_mod n (UDPSink.spbv st)
    calc n = UDPSink.spbv st * (n / UDPSink.spbv st) + n % UDPSink.spbv st := h.symm
      _ = n / UDPSink.spbv st * UDPSink.spbv st + n % UDPSink.spbv st := by ring
  · intro h16 hud
    unfold UDPSink.spbv
    rw [Nat.mod_eq_of_lt h16]
    exact Nat.mod_eq_of_lt (lt_of_le_of_lt (Nat.div_le_self _ _) hud)

/-- Claim C5 witness: Scenario A numbers satisfy the amended identity. -/
theorem claim5_witness :
    (0 < UDPSink.spbv scenarioAState ∧ 2000 < 2 ^ 32 ∧
      2000 / UDPSink.spbv scenarioAState < 65536) ∧
    (scenarioAMeta.m_nbSamples = scenarioAMeta.m_nbCompleteBlocks * UDPSink.spbv scenarioAState +
        scenarioAMeta.m_remainderSamples ∧
      (scenarioAState.m_sampleBytes < 16 → scenarioAState.m_udpSize < 65536 →
        UDPSink.spbv scenarioAState = scenarioAState.m_udpSize /
          (2 * (scenarioAState.m_sampleBytes % 16)))) :=
  ⟨by decide, claim5_amended crcModel 3 4 scenarioAState 2000 (by decide) (by decide) (by decide)⟩

/-- Claim C6: the checksum stored in the header's final field is computed
over exactly the bytes of the fields preceding it: the record's 42-byte
image minus its final 8-byte field. -/
theorem claim6_checksum_span (crc : List Nat → Nat) (t1 t2 : Nat) (st : UDPSinkState)
    (n : Nat) :
    (serializeMeta (UDPSink.buildMeta crc t1 t2 st n)).length = 42 ∧
    (UDPSink.buildMeta crc t1 t2 st n).m_crc =
      crc ((serializeMeta (UDPSink.buildMeta crc t1 t2 st n)).take (42 - 8)) % 2 ^ 64 := by
  refine ⟨serializeMeta_length _, ?_⟩
  have h := serializeMeta_take34_crc (UDPSink.buildMeta0 t1 t2 st n)
    (crc ((serializeMeta (UDPSink.buildMeta0 t1 t2 st n)).take 34) % 2 ^ 64)
  show crc ((serializeMeta (UDPSink.buildMeta0 t1 t2 st n)).take 34) % 2 ^ 64 = _
  rw [show (42 : Nat) - 8 = 34 from rfl,
    show UDPSink.buildMeta crc t1 t2 st n =
      { UDPSink.buildMeta0 t1 t2 st n with
        m_crc := crc ((serializeMeta (UDPSink.buildMeta0 t1 t2 st n)).take 34) % 2 ^ 64 } from rfl,
    h]

/-- Concrete sink state with a small datagram size (44 bytes, one byte per
I/Q component): keeps concrete runs cheap to evaluate. -/
def smallState : UDPSinkState :=
  ⟨44, 434000000, 48000, 1, 8, 0, 0, 0, 0, List.replicate 2 0, List.replicate 44 0,
    ⟨0, 0, 0, 0, 0, 0, 0, 0, 0, 0, 0, 0⟩⟩

/-- Claim C7: with the two scratch buffers actually allocated at m_udpSize
bytes (as the constructor does) every datagram handed to SendDataGram,
header or payload, is exactly m_udpSize bytes long. -/
theorem claim7_datagram_size (crc : List Nat → Nat) (oob : Nat → Nat) (t1 t2 : Nat)
    (st : UDPSinkState) (samples : List (List Nat))
    (h1 : st.m_bufMetaTail.length = st.m_udpSize - 42)
    (h2 : 42 ≤ st.m_udpSize)
    (h3 : st.m_buf.length = st.m_udpSize) :
    ∀ d ∈ (UDPSink.write crc oob t1 t2 st samples).2, d.length = st.m_udpSize := by
  have hhdr : (UDPSink.headerD crc t1 t2 st samples.length).length = st.m_udpSize := by
    rw [UDPSink.headerD, List.length_take, List.length_append, serializeMeta_length, h1]
    omega
  have hrem : ∀ md, ((UDPSink.remBuf oob st samples md).take st.m_udpSize).length =
      st.m_udpSize := by
    intro md
    rw [List.length_take, UDPSink.remBuf, List.length_append, datagramAt_length,
      List.length_drop, h3]
    omega
  intro d hd
  simp only [UDPSink.write] at hd
  split at hd
  · simp only [List.mem_cons, List.mem_append, List.mem_map, List.mem_singleton,
      List.not_mem_nil, or_false] at hd
    rcases hd with rfl | ⟨i, _, rfl⟩ | rfl
    · exact hhdr
    · exact datagramAt_length _ _ _ _
    · exact hrem _
  · simp only [List.mem_cons, List.mem_map] at hd
    rcases hd with rfl | ⟨i, _, rfl⟩
    · exact hhdr
    · exact datagramAt_length _ _ _ _

/-- Claim C7 witness: a concrete well-formed sink state and a one-sample
frame give only 1024-byte datagrams. -/
theorem claim7_witness :
    (smallState.m_bufMetaTail.length = smallState.m_udpSize - 42 ∧
      42 ≤ smallState.m_udpSize ∧
      smallState.m_buf.length = smallState.m_udpSize) ∧
    ∀ d ∈ (UDPSink.write crcModel (fun _ => 0) 3 4 smallState [[1, 1]]).2,
      d.length = smallState.m_udpSize :=
  ⟨⟨by decide, by decide, by decide⟩,
    claim7_datagram_size crcModel (fun _ => 0) 3 4 smallState [[1, 1]]
      (by decide) (by decide) (by decide)⟩

/-- Claim C8: the LZ4 scratch buffer fields are left unchanged by a call
whose frame sample count equals the previous call's, and any call that
does change them had a sample count different from the stored one. -/
theorem claim8_lz4_stability (crc : List Nat → Nat) (oob1 oob2 : Nat → Nat)
    (t1 t2 t3 t4 : Nat) (st : UDPSinkState) (A B : List (List Nat))
    (h : B.length = A.length) :
    ((UDPSink.write crc oob2 t3 t4 (UDPSink.write crc oob1 t1 t2 st A).1 B).1.m_lz4Buffer =
        (UDPSink.write crc oob1 t1 t2 st A).1.m_lz4Buffer ∧
      (UDPSink.write crc oob2 t3 t4 (UDPSink.write crc oob1 t1 t2 st A).1 B).1.m_lz4BufSize =
        (UDPSink.write crc oob1 t1 t2 st A).1.m_lz4BufSize) ∧
    ∀ (oob : Nat → Nat) (u1 u2 : Nat) (S : List (List Nat)),
      ((UDPSink.write crc oob u1 u2 st S).1.m_lz4Buffer ≠ st.m_lz4Buffer ∨
        (UDPSink.write crc oob u1 u2 st S).1.m_lz4BufSize ≠ st.m_lz4BufSize) →
      S.length % 2 ^ 32 ≠ st.m_nbSamples := by
  constructor
  · have hst1 : (UDPSink.write crc oob1 t1 t2 st A).1.m_nbSamples = A.length % 2 ^ 32 :=
      write_fst_m_nbSamples crc oob1 t1 t2 st A
    have heq : (UDPSink.buildMeta crc t3 t4 (UDPSink.write crc oob1 t1 t2 st A).1
        B.length).m_nbSamples = (UDPSink.write crc oob1 t1 t2 st A).1.m_nbSamples := by
      rw [buildMeta_nbSamples, hst1, h]
    constructor
    · rw [write_fst_m_lz4Buffer, lz4Update_unchanged _ _ heq]
    · rw [write_fst_m_lz4BufSize, lz4Update_unchanged _ _ heq]
  · intro oob u1 u2 S hne hS
    have heq : (UDPSink.buildMeta crc u1 u2 st S.length).m_nbSamples = st.m_nbSamples := by
      rw [buildMeta_nbSamples, hS]
    rcases hne with hne | hne
    · exact hne (by rw [write_fst_m_lz4Buffer, lz4Update_unchanged _ _ heq])
    · exact hne (by rw [write_fst_m_lz4BufSize, lz4Update_unchanged _ _ heq])

/-- First call of the C8 witness run: one four-byte sample written through
a Scenario A sink. -/
def claim8State1 : UDPSinkState :=
  (UDPSink.write crcModel (fun _ => 0) 3 4 scenarioAState [[1, 2, 3, 4]]).1

/-- Claim C8 witness: two consecutive one-sample frames leave the LZ4
scratch fields alone. -/
theorem claim8_witness :
    ([[5, 6, 7, 8]] : List (List Nat)).length = ([[1, 2, 3, 4]] : List (List Nat)).length ∧
    (((UDPSink.write crcModel (fun _ => 0) 5 6 claim8State1 [[5, 6, 7, 8]]).1.m_lz4Buffer =
        claim8State1.m_lz4Buffer ∧
      (UDPSink.write crcModel (fun _ => 0) 5 6 claim8State1 [[5, 6, 7, 8]]).1.m_lz4BufSize =
        claim8State1.m_lz4BufSize) ∧
    ∀ (oob : Nat → Nat) (u1 u2 : Nat) (S : List (List Nat)),
      ((UDPSink.write crcModel oob u1 u2 scenarioAState S).1.m_lz4Buffer ≠
          scenarioAState.m_lz4Buffer ∨
        (UDPSink.write crcModel oob u1 u2 scenarioAState S).1.m_lz4BufSize ≠
          scenarioAState.m_lz4BufSize) →
      S.length % 2 ^ 32 ≠ scenarioAState.m_nbSamples) :=
  ⟨by decide,
    claim8_lz4_stability crcModel (fun _ => 0) (fun _ => 0) 3 4 5 6 scenarioAState
      [[1, 2, 3, 4]] [[5, 6, 7, 8]] (by decide)⟩

theorem getLastD_cons_concat (a x : List Nat) (l : List (List Nat)) :
    (a :: (l ++ [x])).getLastD [] = x := by
  rw [show a :: (l ++ [x]) = (a :: l) ++ [x] from rfl, List.getLastD_eq_getLast?,
    List.getLast?_concat]
  rfl

theorem cb_le_div (st : UDPSinkState) (crc : List Nat → Nat) (t1 t2 n : Nat) :
    (UDPSink.buildMeta crc t1 t2 st n).m_nbCompleteBlocks ≤ n / UDPSink.spbv st := by
  rw [buildMeta_nbCompleteBlocks]
  exact Nat.mod_le _ _

/-- Payload datagram i of a write call, accessed by position 1 + i in the
emitted datagram list. -/
theorem write_snd_getD_payload (crc : List Nat → Nat) (oob : Nat → Nat) (t1 t2 : Nat)
    (st : UDPSinkState) (samples : List (List Nat)) (i : Nat)
    (hi : i < (UDPSink.buildMeta crc t1 t2 st samples.length).m_nbCompleteBlocks) :
    ((UDPSink.write crc oob t1 t2 st samples).2.getD (1 + i) []) =
      UDPSink.payloadD oob st samples i := by
  have hlt : i < ((List.range (UDPSink.buildMeta crc t1 t2 st
      samples.length).m_nbCompleteBlocks).map (UDPSink.payloadD oob st samples)).length := by
    simpa using hi
  have hget : (((List.range (UDPSink.buildMeta crc t1 t2 st
      samples.length).m_nbCompleteBlocks).map (UDPSink.payloadD oob st samples)).getD i []) =
      UDPSink.payloadD oob st samples i := by
    rw [List.getD_eq_getElem _ _ hlt]
    simp
  simp only [UDPSink.write]
  split
  · rw [show (1 : Nat) + i = i + 1 from by omega, List.getD_cons_succ, List.getD_append _ _ _ _ hlt,
      hget]
  · rw [show (1 : Nat) + i = i + 1 from by omega, List.getD_cons_succ, hget]

/-- Claim C2: one write call emits exactly one header datagram first, then
completeBlockCount payload datagrams each carrying samplesPerBlock
consecutive samples in frame order, then exactly when remainderSamples is
positive one final payload datagram built from the remainder scratch
buffer; the datagram count is 1 + completeBlockCount +
(remainderSamples > 0 ? 1 : 0). -/
theorem claim2_emission_order (crc : List Nat → Nat) (oob : Nat → Nat) (t1 t2 : Nat)
    (st : UDPSinkState) (samples : List (List Nat))
    (hsb : ∀ s ∈ samples, s.length = UDPSink.stridev st) :
    (UDPSink.write crc oob t1 t2 st samples).2.length =
      1 + (UDPSink.buildMeta crc t1 t2 st samples.length).m_nbCompleteBlocks +
      (if 0 < (UDPSink.buildMeta crc t1 t2 st samples.length).m_remainderSamples
        then 1 else 0) ∧
    (UDPSink.write crc oob t1 t2 st samples).2.getD 0 [] =
      UDPSink.headerD crc t1 t2 st samples.length ∧
    (∀ i < (UDPSink.buildMeta crc t1 t2 st samples.length).m_nbCompleteBlocks,
      ((UDPSink.write crc oob t1 t2 st samples).2.getD (1 + i) []).take
          (UDPSink.spbv st * UDPSink.stridev st) =
        ((samples.drop (i * UDPSink.spbv st)).take (UDPSink.spbv st)).flatten) ∧
    (0 < (UDPSink.buildMeta crc t1 t2 st samples.length).m_remainderSamples →
      (UDPSink.write crc oob t1 t2 st samples).2.getLastD [] =
        (UDPSink.remBuf oob st samples
          (UDPSink.buildMeta crc t1 t2 st samples.length)).take st.m_udpSize) := by
  refine ⟨?_, ?_, ?_, ?_⟩
  · simp only [UDPSink.write]
    split
    · next h => simp [if_pos h]; omega
    · next h => simp [if_neg h]; omega
  · simp only [UDPSink.write]
    split <;> rfl
  · intro i hi
    rw [write_snd_getD_payload crc oob t1 t2 st samples i hi]
    refine payloadD_take_slice oob st samples i hsb ?_
    have h1 : i + 1 ≤ samples.length / UDPSink.spbv st := by
      have := cb_le_div st crc t1 t2 samples.length
      omega
    calc (i + 1) * UDPSink.spbv st
        ≤ samples.length / UDPSink.spbv st * UDPSink.spbv st :=
          Nat.mul_le_mul_right _ h1
      _ ≤ samples.length := Nat.div_mul_le_self _ _
  · intro hrem
    simp only [UDPSink.write]
    rw [if_pos hrem]
    exact getLastD_cons_concat _ _ _

/-- Claim C2 witness: a 23-sample frame through the small sink (22
samples per block) gives one header, one complete block and a remainder
datagram. -/
theorem claim2_witness :
    (∀ s ∈ List.replicate 23 [1, 1], List.length s = UDPSink.stridev smallState) ∧
    ((UDPSink.write crcModel (fun _ => 0) 3 4 smallState (List.replicate 23 [1, 1])).2.length =
      1 + (UDPSink.buildMeta crcModel 3 4 smallState
        (List.replicate 23 ([1, 1] : List Nat)).length).m_nbCompleteBlocks +
      (if 0 < (UDPSink.buildMeta crcModel 3 4 smallState
        (List.replicate 23 ([1, 1] : List Nat)).length).m_remainderSamples then 1 else 0) ∧
    (UDPSink.write crcModel (fun _ => 0) 3 4 smallState (List.replicate 23 [1, 1])).2.getD 0 [] =
      UDPSink.headerD crcModel 3 4 smallState (List.replicate 23 ([1, 1] : List Nat)).length ∧
    (∀ i < (UDPSink.buildMeta crcModel 3 4 smallState
        (List.replicate 23 ([1, 1] : List Nat)).length).m_nbCompleteBlocks,
      ((UDPSink.write crcModel (fun _ => 0) 3 4 smallState
          (List.replicate 23 [1, 1])).2.getD (1 + i) []).take
          (UDPSink.spbv smallState * UDPSink.stridev smallState) =
        (((List.replicate 23 ([1, 1] : List Nat)).drop (i * UDPSink.spbv smallState)).take
          (UDPSink.spbv smallState)).flatten) ∧
    (0 < (UDPSink.buildMeta crcModel 3 4 smallState
        (List.replicate 23 ([1, 1] : List Nat)).length).m_remainderSamples →
      (UDPSink.write crcModel (fun _ => 0) 3 4 smallState
          (List.replicate 23 [1, 1])).2.getLastD [] =
        (UDPSink.remBuf (fun _ => 0) smallState (List.replicate 23 [1, 1])
          (UDPSink.buildMeta crcModel 3 4 smallState
            (List.replicate 23 ([1, 1] : List Nat)).length)).take smallState.m_udpSize)) :=
  ⟨by decide, claim2_emission_order crcModel (fun _ => 0) 3 4 smallState
    (List.replicate 23 [1, 1]) (by decide)⟩

theorem take_append_len (A C : List Nat) (n : Nat) (h : A.length = n) :
    (A ++ C).take n = A := by
  rw [← h]
  exact List.take_left _ _

theorem drop_append_len (A C : List Nat) (n : Nat) (h : A.length = n) :
    (A ++ C).drop n = C := by
  rw [← h]
  exact List.drop_left _ _

theorem remBuf_take_structure (oob : Nat → Nat) (st : UDPSinkState)
    (samples : List (List Nat)) (md : MetaData)
    (hcl : UDPSink.copyLenD md ≤ st.m_udpSize) :
    (UDPSink.remBuf oob st samples md).take st.m_udpSize =
      datagramAt samples.flatten oob
        (md.m_nbCompleteBlocks * UDPSink.spbv st * UDPSink.stridev st)
        (UDPSink.copyLenD md) ++
      (st.m_buf.drop (UDPSink.copyLenD md)).take (st.m_udpSize - UDPSink.copyLenD md) := by
  rw [UDPSink.remBuf, List.take_append_eq_append_take]
  congr 1
  · exact List.take_of_length_le (by rw [datagramAt_length]; exact hcl)
  · rw [datagramAt_length]

theorem cb_mul_add_rem_le (crc : List Nat → Nat) (t1 t2 : Nat) (st : UDPSinkState)
    (n : Nat) (hspb : 0 < UDPSink.spbv st) :
    (UDPSink.buildMeta crc t1 t2 st n).m_nbCompleteBlocks * UDPSink.spbv st +
      (UDPSink.buildMeta crc t1 t2 st n).m_remainderSamples ≤ n := by
  have h1 : (UDPSink.buildMeta crc t1 t2 st n).m_nbCompleteBlocks * UDPSink.spbv st ≤
      n / UDPSink.spbv st * UDPSink.spbv st :=
    Nat.mul_le_mul_right _ (cb_le_div st crc t1 t2 n)
  have h2 := Nat.div_add_mod n (UDPSink.spbv st)
  rw [buildMeta_rem_eq crc t1 t2 st n hspb]
  have h3 : n / UDPSink.spbv st * UDPSink.spbv st + n % UDPSink.spbv st = n := by
    calc n / UDPSink.spbv st * UDPSink.spbv st + n % UDPSink.spbv st
        = UDPSink.spbv st * (n / UDPSink.spbv st) + n % UDPSink.spbv st := by ring
      _ = n := h2
  omega

theorem copied_eq_remainder_slice (crc : List Nat → Nat) (oob : Nat → Nat)
    (t1 t2 : Nat) (st : UDPSinkState) (samples : List (List Nat))
    (hspb : 0 < UDPSink.spbv st)
    (hsb : ∀ s ∈ samples, s.length = UDPSink.stridev st) :
    datagramAt samples.flatten oob
        ((UDPSink.buildMeta crc t1 t2 st samples.length).m_nbCompleteBlocks *
          UDPSink.spbv st * UDPSink.stridev st)
        (UDPSink.copyLenD (UDPSink.buildMeta crc t1 t2 st samples.length)) =
      ((samples.drop ((UDPSink.buildMeta crc t1 t2 st
            samples.length).m_nbCompleteBlocks * UDPSink.spbv st)).take
        (UDPSink.buildMeta crc t1 t2 st samples.length).m_remainderSamples).flatten := by
  have hbound := cb_mul_add_rem_le crc t1 t2 st samples.length hspb
  have hcl_eq : UDPSink.copyLenD (UDPSink.buildMeta crc t1 t2 st samples.length) =
      (UDPSink.buildMeta crc t1 t2 st samples.length).m_remainderSamples *
        UDPSink.stridev st := by
    rw [UDPSink.copyLenD, buildMeta_sampleBytes_nib, UDPSink.stridev]
    ring
  rw [hcl_eq, datagramAt_in_range]
  · have e1 : (UDPSink.buildMeta crc t1 t2 st samples.length).m_nbCompleteBlocks *
        UDPSink.spbv st * UDPSink.stridev st =
        UDPSink.stridev st * ((UDPSink.buildMeta crc t1 t2 st
          samples.length).m_nbCompleteBlocks * UDPSink.spbv st) := by ring
    have e2 : (UDPSink.buildMeta crc t1 t2 st samples.length).m_remainderSamples *
        UDPSink.stridev st =
        UDPSink.stridev st * (UDPSink.buildMeta crc t1 t2 st
          samples.length).m_remainderSamples := by ring
    rw [e1, e2, flatten_slice_uniform _ _ _ _ hsb]
  · rw [flatten_length_uniform _ _ hsb]
    calc (UDPSink.buildMeta crc t1 t2 st samples.length).m_nbCompleteBlocks *
          UDPSink.spbv st * UDPSink.stridev st +
          (UDPSink.buildMeta crc t1 t2 st samples.length).m_remainderSamples *
            UDPSink.stridev st
        = UDPSink.stridev st *
            ((UDPSink.buildMeta crc t1 t2 st samples.length).m_nbCompleteBlocks *
              UDPSink.spbv st +
              (UDPSink.buildMeta crc t1 t2 st samples.length).m_remainderSamples) := by
          ring
      _ ≤ UDPSink.stridev st * samples.length := Nat.mul_le_mul_left _ hbound

theorem write_last_remainder (crc : List Nat → Nat) (oob : Nat → Nat) (t1 t2 : Nat)
    (st : UDPSinkState) (samples : List (List Nat))
    (hrem : 0 < (UDPSink.buildMeta crc t1 t2 st samples.length).m_remainderSamples) :
    (UDPSink.write crc oob t1 t2 st samples).2.getLastD [] =
      (UDPSink.remBuf oob st samples
        (UDPSink.buildMeta crc t1 t2 st samples.length)).take st.m_udpSize := by
  simp only [UDPSink.write]
  rw [if_pos hrem]
  exact getLastD_cons_concat _ _ _

/-- State after a first write call whose remainder fills six bytes of the
m_buf scratch buffer with the value 7. -/
def claim3Run1 : UDPSinkState :=
  (UDPSink.write crcModel (fun _ => 99) 5 6 smallState (List.replicate 3 [7, 7])).1

/-- Datagrams of a second write call with a one-sample remainder. -/
def claim3Dgrams : List (List Nat) :=
  (UDPSink.write crcModel (fun _ => 99) 7 8 claim3Run1 [[9, 9]]).2

/-- Claim C3, counterexample: on a call following a previous frame whose
remainder filled the same scratch buffer, the final payload datagram is
not zero-padded: beyond the two remainder-sample bytes it carries the
previous frame's bytes (here the value 7 at offset 2). -/
theorem claim3_counterexample :
    0 < (UDPSink.buildMeta crcModel 7 8 claim3Run1 1).m_remainderSamples ∧
    (claim3Dgrams.getLastD []).getD 2 0 = 7 := by
  exact ⟨by decide, by decide⟩

/-- Claim C3, amended: when remainderSamples is positive the final payload
datagram holds the remaining remainderSamples samples followed, up to
datagramSize, by whatever bytes the m_buf scratch buffer already held
beyond the copied span (the code never zeroes that tail). -/
theorem claim3_amended (crc : List Nat → Nat) (oob : Nat → Nat) (t1 t2 : Nat)
    (st : UDPSinkState) (samples : List (List Nat))
    (hspb : 0 < UDPSink.spbv st)
    (hsb : ∀ s ∈ samples, s.length = UDPSink.stridev st)
    (hrem : 0 < (UDPSink.buildMeta crc t1 t2 st samples.length).m_remainderSamples) :
    ((UDPSink.write crc oob t1 t2 st samples).2.getLastD []).take
        (UDPSink.copyLenD (UDPSink.buildMeta crc t1 t2 st samples.length)) =
      ((samples.drop ((UDPSink.buildMeta crc t1 t2 st
            samples.length).m_nbCompleteBlocks * UDPSink.spbv st)).take
        (UDPSink.buildMeta crc t1 t2 st samples.length).m_remainderSamples).flatten ∧
    ((UDPSink.write crc oob t1 t2 st samples).2.getLastD []).drop
        (UDPSink.copyLenD (UDPSink.buildMeta crc t1 t2 st samples.length)) =
      (st.m_buf.drop
          (UDPSink.copyLenD (UDPSink.buildMeta crc t1 t2 st samples.length))).take
        (st.m_udpSize -
          UDPSink.copyLenD (UDPSink.buildMeta crc t1 t2 st samples.length)) := by
  have hcl := copyLenD_le crc t1 t2 st samples.length hspb
  have hlast := write_last_remainder crc oob t1 t2 st samples hrem
  rw [hlast, remBuf_take_structure oob st samples _ hcl]
  have hlen : (datagramAt samples.flatten oob
      ((UDPSink.buildMeta crc t1 t2 st samples.length).m_nbCompleteBlocks *
        UDPSink.spbv st * UDPSink.stridev st)
      (UDPSink.copyLenD (UDPSink.buildMeta crc t1 t2 st samples.length))).length =
      UDPSink.copyLenD (UDPSink.buildMeta crc t1 t2 st samples.length) :=
    datagramAt_length _ _ _ _
  constructor
  · rw [take_append_len _ _ _ hlen,
      copied_eq_remainder_slice crc oob t1 t2 st samples hspb hsb]
  · rw [drop_append_len _ _ _ hlen]

/-- Claim C3 witness: the amended statement at the concrete second call of
the counterexample run. -/
theorem claim3_witness :
    (0 < UDPSink.spbv claim3Run1 ∧
      (∀ s ∈ ([[9, 9]] : List (List Nat)), List.length s = UDPSink.stridev claim3Run1) ∧
      0 < (UDPSink.buildMeta crcModel 7 8 claim3Run1
        ([[9, 9]] : List (List Nat)).length).m_remainderSamples) ∧
    (((UDPSink.write crcModel (fun _ => 99) 7 8 claim3Run1 [[9, 9]]).2.getLastD []).take
        (UDPSink.copyLenD (UDPSink.buildMeta crcModel 7 8 claim3Run1
          ([[9, 9]] : List (List Nat)).length)) =
      ((([[9, 9]] : List (List Nat)).drop
          ((UDPSink.buildMeta crcModel 7 8 claim3Run1
            ([[9, 9]] : List (List Nat)).length).m_nbCompleteBlocks *
            UDPSink.spbv claim3Run1)).take
        (UDPSink.buildMeta crcModel 7 8 claim3Run1
          ([[9, 9]] : List (List Nat)).length).m_remainderSamples).flatten ∧
    ((UDPSink.write crcModel (fun _ => 99) 7 8 claim3Run1 [[9, 9]]).2.getLastD []).drop
        (UDPSink.copyLenD (UDPSink.buildMeta crcModel 7 8 claim3Run1
          ([[9, 9]] : List (List Nat)).length)) =
      (claim3Run1.m_buf.drop
          (UDPSink.copyLenD (UDPSink.buildMeta crcModel 7 8 claim3Run1
            ([[9, 9]] : List (List Nat)).length))).take
        (claim3Run1.m_udpSize -
          UDPSink.copyLenD (UDPSink.buildMeta crcModel 7 8 claim3Run1
            ([[9, 9]] : List (List Nat)).length))) :=
  ⟨⟨by decide, by decide, by decide⟩,
    claim3_amended crcModel (fun _ => 99) 7 8 claim3Run1 [[9, 9]]
      (by decide) (by decide) (by decide)⟩

/-- Claim C9: a configuration map whose freq value converts to a uint32
below 24000000 or above 1800000000 makes both device configure operations
return false with only the error string set: m_frequency, m_confFreq and
m_sampleRate keep their prior values and no device setter is invoked. -/
theorem claim9_invalid_freq (stA : AirspyState) (stH : AirspyHFState) (m : ConfigMap)
    (v : Int) (hv : m.freq = some v)
    (hout : uint32OfInt v < 24000000 ∨ 1800000000 < uint32OfInt v) :
    AirspySource.configure stA m = (false, { stA with m_error := "Invalid frequency" }, []) ∧
    AirspyHFSource.configure stH m = (false, { stH with m_error := "Invalid frequency" }, []) := by
  constructor
  · simp [AirspySource.configure, Id.run, hv, hout]
  · simp [AirspyHFSource.configure, Id.run, hv, hout]

/-- Claim C9 witness: freq 1000 is rejected and the state (device list,
rates, frequency) survives unchanged on both devices. -/
theorem claim9_witness :
    ((⟨some 1000, none, none, none, none, none, none, none, none, none, none,
        none⟩ : ConfigMap).freq = some 1000 ∧
      (uint32OfInt 1000 < 24000000 ∨ 1800000000 < uint32OfInt 1000)) ∧
    (AirspySource.configure
        ⟨true, 10000000, 100000000, 0, 2, 0, 100000000, 8, 8, 0, false, false, false,
          [2500000, 10000000], ""⟩
        ⟨some 1000, none, none, none, none, none, none, none, none, none, none, none⟩ =
      (false, { (⟨true, 10000000, 100000000, 0, 2, 0, 100000000, 8, 8, 0, false, false,
          false, [2500000, 10000000], ""⟩ : AirspyState) with
        m_error := "Invalid frequency" }, []) ∧
    AirspyHFSource.configure
        ⟨true, 768000, 10000000, 0, 0, 10000000, [192000, 384000, 768000], ""⟩
        ⟨some 1000, none, none, none, none, none, none, none, none, none, none, none⟩ =
      (false, { (⟨true, 768000, 10000000, 0, 0, 10000000, [192000, 384000, 768000],
          ""⟩ : AirspyHFState) with m_error := "Invalid frequency" }, [])) :=
  ⟨⟨by decide, by decide⟩,
    claim9_invalid_freq
      ⟨true, 10000000, 100000000, 0, 2, 0, 100000000, 8, 8, 0, false, false, false,
        [2500000, 10000000], ""⟩
      ⟨true, 768000, 10000000, 0, 0, 10000000, [192000, 384000, 768000], ""⟩
      ⟨some 1000, none, none, none, none, none, none, none, none, none, none, none⟩
      1000 (by decide) (by decide)⟩

/-- Device state used in the C10 counterexample: an open Airspy whose
stored sample rate is 768000. -/
def claim10State : AirspyState :=
  ⟨true, 768000, 100000000, 0, 2, 0, 100000000, 8, 8, 0, false, false, false,
    [2500000, 10000000], ""⟩

/-- Configuration map of the C10 counterexample: an out-of-range freq
together with a sample rate that is not in the supported list. -/
def claim10Map : ConfigMap :=
  ⟨some 1000, some 123, none, none, none, none, none, none, none, none, none, none⟩

/-- Claim C10, counterexample: a map holding both an invalid freq and an
unsupported srate returns false from the freq check before the srate
block runs, so the stored sample rate is not overwritten with 0 and
get_sample_rate still returns the prior 768000. -/
theorem claim10_counterexample :
    (AirspySource.configure claim10State claim10Map).1 = false ∧
    AirspySource.get_sample_rate (AirspySource.configure claim10State claim10Map).2.1 ≠ 0 := by
  exact ⟨by decide, by decide⟩

/-- Claim C10, amended: provided any freq key present is within the
accepted range (so control reaches the srate validation), a map whose
srate value is not in the device's supported list makes configure return
false with the stored sample rate already overwritten to 0 (the write at
the top of the srate block, then the 0 on the error path), so a
subsequent get_sample_rate returns 0; holds for both devices. -/
theorem claim10_amended (stA : AirspyState) (stH : AirspyHFState) (m : ConfigMap)
    (v : Int) (hv : m.srate = some v)
    (hf : m.freq = none ∨ ∃ w, m.freq = some w ∧ 24000000 ≤ uint32OfInt w ∧
      uint32OfInt w ≤ 1800000000)
    (hnfA : stA.m_srates.findIdx? (fun r => r == int32OfUint32 (uint32OfInt v)) = none)
    (hnfH : stH.m_srates.findIdx? (fun r => r == int32OfUint32 (uint32OfInt v)) = none) :
    AirspySource.configure stA m =
      (false, { stA with m_sampleRate := 0, m_error := "Invalid sample rate" }, []) ∧
    AirspySource.get_sample_rate (AirspySource.configure stA m).2.1 = 0 ∧
    AirspyHFSource.configure stH m =
      (false, { stH with m_sampleRate := 0, m_error := "Invalid sample rate" }, []) ∧
    AirspyHFSource.get_sample_rate (AirspyHFSource.configure stH m).2.1 = 0 := by
  have hA : AirspySource.configure stA m =
      (false, { stA with m_sampleRate := 0, m_error := "Invalid sample rate" }, []) := by
    rcases hf with hf | ⟨w, hw, hw1, hw2⟩
    · simp [AirspySource.configure, Id.run, hf, hv, hnfA]
    · have hcond : ¬ (uint32OfInt w < 24000000 ∨ 1800000000 < uint32OfInt w) := by omega
      simp [AirspySource.configure, Id.run, hw, hv, hnfA, hcond]
  have hH : AirspyHFSource.configure stH m =
      (false, { stH with m_sampleRate := 0, m_error := "Invalid sample rate" }, []) := by
    rcases hf with hf | ⟨w, hw, hw1, hw2⟩
    · simp [AirspyHFSource.configure, Id.run, hf, hv, hnfH]
    · have hcond : ¬ (uint32OfInt w < 24000000 ∨ 1800000000 < uint32OfInt w) := by omega
      simp [AirspyHFSource.configure, Id.run, hw, hv, hnfH, hcond]
  refine ⟨hA, ?_, hH, ?_⟩
  · rw [hA]
    rfl
  · rw [hH]
    rfl

/-- Claim C10 witness: srate 123 with no freq key zeroes the stored
sample rate on both devices. -/
theorem claim10_witness :
    ((⟨none, some 123, none, none, none, none, none, none, none, none, none,
        none⟩ : ConfigMap).srate = some 123 ∧
      (claim10State.m_srates.findIdx?
        (fun r => r == int32OfUint32 (uint32OfInt 123)) = none)) ∧
    (AirspySource.configure claim10State
        ⟨none, some 123, none, none, none, none, none, none, none, none, none, none⟩ =
      (false, { claim10State with m_sampleRate := 0, m_error := "Invalid sample rate" },
        []) ∧
    AirspySource.get_sample_rate (AirspySource.configure claim10State
        ⟨none, some 123, none, none, none, none, none, none, none, none, none,
          none⟩).2.1 = 0 ∧
    AirspyHFSource.configure
        ⟨true, 768000, 10000000, 0, 0, 10000000, [192000, 384000, 768000], ""⟩
        ⟨none, some 123, none, none, none, none, none, none, none, none, none, none⟩ =
      (false,
        { (⟨true, 768000, 10000000, 0, 0, 10000000, [192000, 384000, 768000],
            ""⟩ : AirspyHFState) with m_sampleRate := 0, m_error := "Invalid sample rate" },
        []) ∧
    AirspyHFSource.get_sample_rate (AirspyHFSource.configure
        ⟨true, 768000, 10000000, 0, 0, 10000000, [192000, 384000, 768000], ""⟩
        ⟨none, some 123, none, none, none, none, none, none, none, none, none,
          none⟩).2.1 = 0) :=
  ⟨⟨by decide, by decide⟩,
    claim10_amended claim10State
      ⟨true, 768000, 10000000, 0, 0, 10000000, [192000, 384000, 768000], ""⟩
      ⟨none, some 123, none, none, none, none, none, none, none, none, none, none⟩
      123 (by decide) (Or.inl (by decide)) (by decide) (by decide)⟩

/-! Round-trip development: feeding one write call's datagrams to the
reassembler. -/

/-- Datagrams of a 23-sample frame through the small sink, used by the
round-trip counterexample. -/
def claim4Dgrams : List (List Nat) :=
  (UDPSink.write crcModel (fun _ => 0) 3 4 smallState (List.replicate 23 [1, 1])).2

/-- Claim C4, counterexample: with the reassembler exactly as the spec
words it (blocks_remaining taken from the header blockCount field, which
the sender stores as 1), the loss-free run of a 23-sample frame completes
after the first payload datagram: exactly one frame is produced but it is
not bit-identical to the input batch. -/
theorem claim4_counterexample :
    (reassembleRun (SDRdaemonBuffer.accept crcModel) ReassemblerState.init
        claim4Dgrams).2.length = 1 ∧
    (reassembleRun (SDRdaemonBuffer.accept crcModel) ReassemblerState.init
        claim4Dgrams).2 ≠ [(List.replicate 23 ([1, 1] : List Nat)).flatten] := by
  exact ⟨by decide, by decide⟩

theorem reassembleRun_append (f : ReassemblerState → List Nat → ReassemblerState × Option (List Nat))
    (st : ReassemblerState) (xs ys : List (List Nat)) :
    reassembleRun f st (xs ++ ys) =
      ((reassembleRun f (reassembleRun f st xs).1 ys).1,
        (reassembleRun f st xs).2 ++ (reassembleRun f (reassembleRun f st xs).1 ys).2) := by
  induction xs generalizing st with
  | nil => simp [reassembleRun]
  | cons d ds ih =>
    simp only [List.cons_append, reassembleRun, List.append_eq]
    rw [ih]
    rcases hfd : (f st d).2 with _ | fr <;> simp [hfd]

/-- Hypotheses of the amended round-trip: a well-formed sink
configuration (buffers allocated as the constructor does, datagram size
at least the header and within 16 bits, indicator nibble clear, a
positive whole number of samples per block) and an input batch of
correctly sized samples whose counts stay inside the header fields. -/
structure RTHyps (st : UDPSinkState) (samples : List (List Nat)) : Prop where
  h42 : 42 ≤ st.m_udpSize
  hud : st.m_udpSize < 65536
  htail : st.m_bufMetaTail.length = st.m_udpSize - 42
  hsb16 : st.m_sampleBytes < 16
  hspb : 0 < UDPSink.spbv st
  hsamp : ∀ s ∈ samples, s.length = UDPSink.stridev st
  hn0 : 0 < samples.length
  hn32 : samples.length < 2 ^ 32
  htr : samples.length / UDPSink.spbv st < 65536

theorem spbv_no_mod (st : UDPSinkState) (hud : st.m_udpSize < 65536) :
    UDPSink.spbv st = st.m_udpSize / (2 * st.m_sampleBytes) := by
  unfold UDPSink.spbv
  exact Nat.mod_eq_of_lt (lt_of_le_of_lt (Nat.div_le_self _ _) hud)

/-- The receiver recomputes samplesPerBlock from the header fields
(blockSize and the encoding low nibble); under the round-trip hypotheses
it coincides with the sender's local samplesPerBlock. -/
theorem receiver_spb_eq (crc : List Nat → Nat) (t1 t2 : Nat) (st : UDPSinkState)
    (n : Nat) (hud : st.m_udpSize < 65536) (hsb16 : st.m_sampleBytes < 16) :
    (UDPSink.buildMeta crc t1 t2 st n).m_blockSize /
      (2 * ((UDPSink.buildMeta crc t1 t2 st n).m_sampleBytes % 16)) = UDPSink.spbv st := by
  rw [buildMeta_blockSize, buildMeta_sampleBytes_nib, Nat.mod_eq_of_lt hud,
    Nat.mod_eq_of_lt hsb16, spbv_no_mod st hud]

theorem buildMeta_nbSamples_eq (crc : List Nat → Nat) (t1 t2 : Nat) (st : UDPSinkState)
    (n : Nat) (hn32 : n < 2 ^ 32) :
    (UDPSink.buildMeta crc t1 t2 st n).m_nbSamples = n := by
  rw [buildMeta_nbSamples]
  exact Nat.mod_eq_of_lt hn32

/-- Reassembler state after the header and k complete payload blocks of
one write call have been accepted: the first k blocks of samples sit at
the front of the reconstruction buffer, the rest of the buffer is still
zero, and k blocks of the expected count have been consumed. -/
def collectS (crc : List Nat → Nat) (t1 t2 : Nat) (st : UDPSinkState)
    (samples : List (List Nat)) (k : Nat) : ReassemblerState :=
  ⟨true, UDPSink.buildMeta crc t1 t2 st samples.length,
    (samples.take (k * UDPSink.spbv st)).flatten ++
      List.replicate ((samples.length - k * UDPSink.spbv st) * UDPSink.stridev st) 0,
    (UDPSink.buildMeta crc t1 t2 st samples.length).m_nbCompleteBlocks +
      (if 0 < (UDPSink.buildMeta crc t1 t2 st samples.length).m_remainderSamples
        then 1 else 0) - k,
    k * UDPSink.spbv st * UDPSink.stridev st⟩

theorem headerD_split (crc : List Nat → Nat) (t1 t2 : Nat) (st : UDPSinkState)
    (n : Nat) (h42 : 42 ≤ st.m_udpSize) :
    UDPSink.headerD crc t1 t2 st n =
      serializeMeta (UDPSink.buildMeta crc t1 t2 st n) ++
        st.m_bufMetaTail.take (st.m_udpSize - 42) := by
  rw [UDPSink.headerD, List.take_append_eq_append_take, serializeMeta_length,
    List.take_of_length_le (by rw [serializeMeta_length]; exact h42)]

theorem buildMeta_fields_lt (crc : List Nat → Nat) (t1 t2 : Nat) (st : UDPSinkState)
    (n : Nat) :
    (UDPSink.buildMeta crc t1 t2 st n).m_centerFrequency < 256 ^ 8 ∧
    (UDPSink.buildMeta crc t1 t2 st n).m_sampleRate < 256 ^ 4 ∧
    (UDPSink.buildMeta crc t1 t2 st n).m_sampleBytes < 256 ^ 1 ∧
    (UDPSink.buildMeta crc t1 t2 st n).m_sampleBits < 256 ^ 1 ∧
    (UDPSink.buildMeta crc t1 t2 st n).m_blockSize < 256 ^ 2 ∧
    (UDPSink.buildMeta crc t1 t2 st n).m_nbSamples < 256 ^ 4 ∧
    (UDPSink.buildMeta crc t1 t2 st n).m_nbBlocks < 256 ^ 2 ∧
    (UDPSink.buildMeta crc t1 t2 st n).m_remainderSamples < 256 ^ 2 ∧
    (UDPSink.buildMeta crc t1 t2 st n).m_nbCompleteBlocks < 256 ^ 2 ∧
    (UDPSink.buildMeta crc t1 t2 st n).m_tv_sec < 256 ^ 4 ∧
    (UDPSink.buildMeta crc t1 t2 st n).m_tv_usec < 256 ^ 4 ∧
    (UDPSink.buildMeta crc t1 t2 st n).m_crc < 256 ^ 8 := by
  refine ⟨?_, ?_, ?_, ?_, ?_, ?_, ?_, ?_, ?_, ?_, ?_, ?_⟩ <;>
    · simp only [UDPSink.buildMeta, UDPSink.buildMeta0]
      omega

/-- The header datagram of a write call deserializes back to the record
the sender built, whatever the trailing padding holds. -/
theorem headerD_deserialize (crc : List Nat → Nat) (t1 t2 : Nat) (st : UDPSinkState)
    (n : Nat) (h42 : 42 ≤ st.m_udpSize) :
    deserializeMeta (UDPSink.headerD crc t1 t2 st n) = UDPSink.buildMeta crc t1 t2 st n := by
  rw [headerD_split crc t1 t2 st n h42]
  obtain ⟨g1, g2, g3, g4, g5, g6, g7, g8, g9, g10, g11, g12⟩ :=
    buildMeta_fields_lt crc t1 t2 st n
  exact deserializeMeta_serializeMeta _ _ g1 g2 g3 g4 g5 g6 g7 g8 g9 g10 g11 g12

/-- Restatement of the checksum-span computation of the header builder
(line 72): the crc field holds the checksum of the 34 leading bytes. -/
theorem buildMeta_crc_eq (crc : List Nat → Nat) (t1 t2 : Nat) (st : UDPSinkState)
    (n : Nat) :
    (UDPSink.buildMeta crc t1 t2 st n).m_crc =
      crc ((serializeMeta (UDPSink.buildMeta crc t1 t2 st n)).take 34) % 2 ^ 64 := by
  have h := serializeMeta_take34_crc (UDPSink.buildMeta0 t1 t2 st n)
    (crc ((serializeMeta (UDPSink.buildMeta0 t1 t2 st n)).take 34) % 2 ^ 64)
  show crc ((serializeMeta (UDPSink.buildMeta0 t1 t2 st n)).take 34) % 2 ^ 64 = _
  rw [show UDPSink.buildMeta crc t1 t2 st n = { UDPSink.buildMeta0 t1 t2 st n with
      m_crc := crc ((serializeMeta (UDPSink.buildMeta0 t1 t2 st n)).take 34) % 2 ^ 64 }
    from rfl, h]

/-- The header datagram passes the receiver's checksum test. -/
theorem headerD_crc_match (crc : List Nat → Nat) (t1 t2 : Nat) (st : UDPSinkState)
    (n : Nat) (h42 : 42 ≤ st.m_udpSize) :
    crc ((UDPSink.headerD crc t1 t2 st n).take 34) % 2 ^ 64 =
      (deserializeMeta (UDPSink.headerD crc t1 t2 st n)).m_crc := by
  have htake : (UDPSink.headerD crc t1 t2 st n).take 34 =
      (serializeMeta (UDPSink.buildMeta crc t1 t2 st n)).take 34 := by
    rw [headerD_split crc t1 t2 st n h42, List.take_append_eq_append_take,
      serializeMeta_length]
    simp
  rw [headerD_deserialize crc t1 t2 st n h42, buildMeta_crc_eq, htake]

theorem flatten_take_length (st : UDPSinkState) (samples : List (List Nat))
    (hsamp : ∀ s ∈ samples, s.length = UDPSink.stridev st) (m : Nat)
    (hm : m ≤ samples.length) :
    ((samples.take m).flatten).length = m * UDPSink.stridev st := by
  rw [flatten_length_uniform (UDPSink.stridev st) _
      (fun s hs => hsamp s (List.mem_of_mem_take hs)),
    List.length_take, Nat.min_eq_left hm]
  ring

/-- One block copy into the reconstruction buffer: writing block k of
samples at its offset turns the k-blocks-filled buffer into the
(k+1)-blocks-filled one. -/
theorem bufAt_update (st : UDPSinkState) (samples : List (List Nat))
    (hsamp : ∀ s ∈ samples, s.length = UDPSink.stridev st) (k : Nat)
    (hin : (k + 1) * UDPSink.spbv st ≤ samples.length) :
    (((samples.take (k * UDPSink.spbv st)).flatten ++
        List.replicate ((samples.length - k * UDPSink.spbv st) * UDPSink.stridev st) 0).take
      (k * UDPSink.spbv st * UDPSink.stridev st)) ++
    ((samples.drop (k * UDPSink.spbv st)).take (UDPSink.spbv st)).flatten ++
    (((samples.take (k * UDPSink.spbv st)).flatten ++
        List.replicate ((samples.length - k * UDPSink.spbv st) * UDPSink.stridev st) 0).drop
      (k * UDPSink.spbv st * UDPSink.stridev st +
        UDPSink.spbv st * UDPSink.stridev st)) =
    (samples.take ((k + 1) * UDPSink.spbv st)).flatten ++
      List.replicate ((samples.length - (k + 1) * UDPSink.spbv st) * UDPSink.stridev st) 0 := by
  have hkle : k * UDPSink.spbv st ≤ samples.length := by
    have : k * UDPSink.spbv st ≤ (k + 1) * UDPSink.spbv st :=
      Nat.mul_le_mul_right _ (by omega)
    omega
  have hA : ((samples.take (k * UDPSink.spbv st)).flatten).length =
      k * UDPSink.spbv st * UDPSink.stridev st :=
    flatten_take_length st samples hsamp _ hkle
  rw [take_append_len _ _ _ hA]
  have hdrop : (((samples.take (k * UDPSink.spbv st)).flatten ++
      List.replicate ((samples.length - k * UDPSink.spbv st) * UDPSink.stridev st) 0).drop
        (k * UDPSink.spbv st * UDPSink.stridev st + UDPSink.spbv st * UDPSink.stridev st)) =
      List.replicate ((samples.length - (k + 1) * UDPSink.spbv st) * UDPSink.stridev st) 0 := by
    rw [← hA, List.drop_append, List.drop_replicate]
    congr 1
    have e1 : (k + 1) * UDPSink.spbv st = k * UDPSink.spbv st + UDPSink.spbv st := by ring
    have e2 : (samples.length - k * UDPSink.spbv st) * UDPSink.stridev st =
        samples.length * UDPSink.stridev st - k * UDPSink.spbv st * UDPSink.stridev st := by
      rw [Nat.sub_mul]
    have e3 : (samples.length - (k + 1) * UDPSink.spbv st) * UDPSink.stridev st =
        samples.length * UDPSink.stridev st -
          (k + 1) * UDPSink.spbv st * UDPSink.stridev st := by
      rw [Nat.sub_mul]
    have e4 : (k + 1) * UDPSink.spbv st * UDPSink.stridev st =
        k * UDPSink.spbv st * UDPSink.stridev st + UDPSink.spbv st * UDPSink.stridev st := by
      ring
    omega
  rw [hdrop]
  have e1 : (k + 1) * UDPSink.spbv st = k * UDPSink.spbv st + UDPSink.spbv st := by ring
  rw [e1, List.take_add, List.flatten_append]

/-- A valid header datagram resets the (amended) reassembler to the
zero-filled collection state of its frame, from any prior state. -/
theorem acceptFixed_header (crc : List Nat → Nat) (t1 t2 : Nat) (st : UDPSinkState)
    (samples : List (List Nat)) (H : RTHyps st samples) (rst : ReassemblerState) :
    SDRdaemonBuffer.acceptFixed crc rst (UDPSink.headerD crc t1 t2 st samples.length) =
      (collectS crc t1 t2 st samples 0, none) := by
  simp only [SDRdaemonBuffer.acceptFixed, SDRdaemonBuffer.acceptWith]
  rw [if_pos (headerD_crc_match crc t1 t2 st samples.length H.h42),
    headerD_deserialize crc t1 t2 st samples.length H.h42]
  have hbuf : (UDPSink.buildMeta crc t1 t2 st samples.length).m_nbSamples * 2 *
      ((UDPSink.buildMeta crc t1 t2 st samples.length).m_sampleBytes % 16) =
      (samples.length - 0 * UDPSink.spbv st) * UDPSink.stridev st := by
    rw [buildMeta_nbSamples_eq crc t1 t2 st samples.length H.hn32, buildMeta_sampleBytes_nib,
      UDPSink.stridev, Nat.zero_mul, Nat.sub_zero]
    ring
  simp [collectS, hbuf]

/-- Accepting complete payload block k in mid-collection: the checksum
test fails, samplesPerBlock samples are copied at the current offset, one
expected block is consumed and no frame is emitted. -/
theorem acceptFixed_payload_mid (crc : List Nat → Nat) (oob : Nat → Nat) (t1 t2 : Nat)
    (st : UDPSinkState) (samples : List (List Nat)) (H : RTHyps st samples) (k : Nat)
    (hk2 : k + 2 ≤ (UDPSink.buildMeta crc t1 t2 st samples.length).m_nbCompleteBlocks +
      (if 0 < (UDPSink.buildMeta crc t1 t2 st
        samples.length).m_remainderSamples then 1 else 0))
    (hnc : ¬ crc ((UDPSink.payloadD oob st samples k).take 34) % 2 ^ 64 =
      (deserializeMeta (UDPSink.payloadD oob st samples k)).m_crc) :
    SDRdaemonBuffer.acceptFixed crc (collectS crc t1 t2 st samples k)
        (UDPSink.payloadD oob st samples k) =
      (collectS crc t1 t2 st samples (k + 1), none) := by
  have hr1 : (if 0 < (UDPSink.buildMeta crc t1 t2 st
      samples.length).m_remainderSamples then 1 else 0) ≤ 1 := by
    split <;> omega
  have hkcb : k + 1 ≤ (UDPSink.buildMeta crc t1 t2 st samples.length).m_nbCompleteBlocks := by
    omega
  have hin : (k + 1) * UDPSink.spbv st ≤ samples.length := by
    have h1 := cb_le_div st crc t1 t2 samples.length
    calc (k + 1) * UDPSink.spbv st
        ≤ samples.length / UDPSink.spbv st * UDPSink.spbv st :=
          Nat.mul_le_mul_right _ (by omega)
      _ ≤ samples.length := Nat.div_mul_le_self _ _
  have hin' : k * UDPSink.spbv st + UDPSink.spbv st ≤ samples.length := by
    have e1 : (k + 1) * UDPSink.spbv st = k * UDPSink.spbv st + UDPSink.spbv st := by ring
    omega
  have hc1 : ¬ ((UDPSink.buildMeta crc t1 t2 st samples.length).m_nbCompleteBlocks +
      (if 0 < (UDPSink.buildMeta crc t1 t2 st
        samples.length).m_remainderSamples then 1 else 0) - k = 1 ∧
      0 < (UDPSink.buildMeta crc t1 t2 st samples.length).m_remainderSamples) := by
    rintro ⟨h1, _⟩
    omega
  have hc2 : ¬ ((UDPSink.buildMeta crc t1 t2 st samples.length).m_nbCompleteBlocks +
      (if 0 < (UDPSink.buildMeta crc t1 t2 st
        samples.length).m_remainderSamples then 1 else 0) - k ≤ 1) := by
    omega
  have harg : (UDPSink.buildMeta crc t1 t2 st samples.length).m_blockSize /
        (2 * ((UDPSink.buildMeta crc t1 t2 st samples.length).m_sampleBytes % 16)) * 2 *
        ((UDPSink.buildMeta crc t1 t2 st samples.length).m_sampleBytes % 16) =
      UDPSink.spbv st * UDPSink.stridev st := by
    rw [receiver_spb_eq crc t1 t2 st samples.length H.hud H.hsb16, buildMeta_sampleBytes_nib,
      UDPSink.stridev]
    ring
  have hbytes : (UDPSink.payloadD oob st samples k).take
        (UDPSink.spbv st * UDPSink.stridev st) =
      ((samples.drop (k * UDPSink.spbv st)).take (UDPSink.spbv st)).flatten :=
    payloadD_take_slice oob st samples k H.hsamp hin
  have hblen : (((samples.drop (k * UDPSink.spbv st)).take (UDPSink.spbv st)).flatten).length =
      UDPSink.spbv st * UDPSink.stridev st := by
    rw [flatten_length_uniform (UDPSink.stridev st) _
        (fun s hs => H.hsamp s (List.mem_of_mem_drop (List.mem_of_mem_take hs))),
      List.length_take, List.length_drop, Nat.min_eq_left (by omega)]
    ring
  simp only [SDRdaemonBuffer.acceptFixed, SDRdaemonBuffer.acceptWith, collectS]
  rw [if_neg hnc]
  simp only [if_true, if_neg hc1, harg, hbytes, hblen, if_neg hc2]
  rw [bufAt_update st samples H.hsamp k hin]
  simp only [Prod.mk.injEq, ReassemblerState.mk.injEq]
  refine ⟨⟨trivial, trivial, trivial, by omega, by ring⟩, trivial⟩

/-- Accepting the last complete payload block of a frame with no
remainder: the buffer is completed and emitted. -/
theorem acceptFixed_payload_last (crc : List Nat → Nat) (oob : Nat → Nat) (t1 t2 : Nat)
    (st : UDPSinkState) (samples : List (List Nat)) (H : RTHyps st samples)
    (hr0 : (UDPSink.buildMeta crc t1 t2 st samples.length).m_remainderSamples = 0)
    (hcb : 0 < (UDPSink.buildMeta crc t1 t2 st samples.length).m_nbCompleteBlocks)
    (hnc : ¬ crc ((UDPSink.payloadD oob st samples
        ((UDPSink.buildMeta crc t1 t2 st samples.length).m_nbCompleteBlocks - 1)).take 34) %
        2 ^ 64 =
      (deserializeMeta (UDPSink.payloadD oob st samples
        ((UDPSink.buildMeta crc t1 t2 st samples.length).m_nbCompleteBlocks - 1))).m_crc) :
    (SDRdaemonBuffer.acceptFixed crc
        (collectS crc t1 t2 st samples
          ((UDPSink.buildMeta crc t1 t2 st samples.length).m_nbCompleteBlocks - 1))
        (UDPSink.payloadD oob st samples
          ((UDPSink.buildMeta crc t1 t2 st samples.length).m_nbCompleteBlocks - 1))).2 =
      some samples.flatten := by
  have hite : (if 0 < (UDPSink.buildMeta crc t1 t2 st
      samples.length).m_remainderSamples then 1 else 0) = 0 := by
    rw [hr0]
    simp
  have hcbv : (UDPSink.buildMeta crc t1 t2 st samples.length).m_nbCompleteBlocks =
      samples.length / UDPSink.spbv st := by
    rw [buildMeta_nbCompleteBlocks]
    exact Nat.mod_eq_of_lt H.htr
  have hmod0 : samples.length % UDPSink.spbv st = 0 := by
    have := buildMeta_rem_eq crc t1 t2 st samples.length H.hspb
    omega
  have hneq : (UDPSink.buildMeta crc t1 t2 st samples.length).m_nbCompleteBlocks *
      UDPSink.spbv st = samples.length := by
    rw [hcbv]
    have h2 := Nat.div_add_mod samples.length (UDPSink.spbv st)
    calc samples.length / UDPSink.spbv st * UDPSink.spbv st
        = UDPSink.spbv st * (samples.length / UDPSink.spbv st) := by ring
      _ = samples.length := by omega
  have hk1 : (UDPSink.buildMeta crc t1 t2 st samples.length).m_nbCompleteBlocks - 1 + 1 =
      (UDPSink.buildMeta crc t1 t2 st samples.length).m_nbCompleteBlocks := by omega
  have hin : ((UDPSink.buildMeta crc t1 t2 st samples.length).m_nbCompleteBlocks - 1 + 1) *
      UDPSink.spbv st ≤ samples.length := by
    rw [hk1, hneq]
  have hc1 : ¬ (((UDPSink.buildMeta crc t1 t2 st samples.length).m_nbCompleteBlocks +
      (if 0 < (UDPSink.buildMeta crc t1 t2 st
        samples.length).m_remainderSamples then 1 else 0) -
        ((UDPSink.buildMeta crc t1 t2 st samples.length).m_nbCompleteBlocks - 1) = 1) ∧
      0 < (UDPSink.buildMeta crc t1 t2 st samples.length).m_remainderSamples) := by
    rintro ⟨_, h2⟩
    omega
  have hc2 : ((UDPSink.buildMeta crc t1 t2 st samples.length).m_nbCompleteBlocks +
      (if 0 < (UDPSink.buildMeta crc t1 t2 st
        samples.length).m_remainderSamples then 1 else 0) -
      ((UDPSink.buildMeta crc t1 t2 st samples.length).m_nbCompleteBlocks - 1)) ≤ 1 := by
    omega
  have harg : (UDPSink.buildMeta crc t1 t2 st samples.length).m_blockSize /
        (2 * ((UDPSink.buildMeta crc t1 t2 st samples.length).m_sampleBytes % 16)) * 2 *
        ((UDPSink.buildMeta crc t1 t2 st samples.length).m_sampleBytes % 16) =
      UDPSink.spbv st * UDPSink.stridev st := by
    rw [receiver_spb_eq crc t1 t2 st samples.length H.hud H.hsb16, buildMeta_sampleBytes_nib,
      UDPSink.stridev]
    ring
  have hbytes : (UDPSink.payloadD oob st samples
        ((UDPSink.buildMeta crc t1 t2 st samples.length).m_nbCompleteBlocks - 1)).take
        (UDPSink.spbv st * UDPSink.stridev st) =
      ((samples.drop (((UDPSink.buildMeta crc t1 t2 st
          samples.length).m_nbCompleteBlocks - 1) * UDPSink.spbv st)).take
        (UDPSink.spbv st)).flatten :=
    payloadD_take_slice oob st samples _ H.hsamp hin
  have hblen : (((samples.drop (((UDPSink.buildMeta crc t1 t2 st
        samples.length).m_nbCompleteBlocks - 1) * UDPSink.spbv st)).take
        (UDPSink.spbv st)).flatten).length =
      UDPSink.spbv st * UDPSink.stridev st := by
    have e1 : ((UDPSink.buildMeta crc t1 t2 st samples.length).m_nbCompleteBlocks - 1 + 1) *
        UDPSink.spbv st = ((UDPSink.buildMeta crc t1 t2 st
          samples.length).m_nbCompleteBlocks - 1) * UDPSink.spbv st + UDPSink.spbv st := by
      ring
    rw [flatten_length_uniform (UDPSink.stridev st) _
        (fun s hs => H.hsamp s (List.mem_of_mem_drop (List.mem_of_mem_take hs))),
      List.length_take, List.length_drop, Nat.min_eq_left (by omega)]
    ring
  have hfull : (samples.take (((UDPSink.buildMeta crc t1 t2 st
      samples.length).m_nbCompleteBlocks - 1 + 1) * UDPSink.spbv st)).flatten ++
      List.replicate ((samples.length - ((UDPSink.buildMeta crc t1 t2 st
        samples.length).m_nbCompleteBlocks - 1 + 1) * UDPSink.spbv st) *
        UDPSink.stridev st) 0 = samples.flatten := by
    rw [hk1, hneq, List.take_length, Nat.sub_self, Nat.zero_mul, List.replicate_zero,
      List.append_nil]
  simp only [SDRdaemonBuffer.acceptFixed, SDRdaemonBuffer.acceptWith, collectS]
  rw [if_neg hnc]
  simp only [if_true, if_neg hc1, harg, hbytes, hblen, if_pos hc2]
  rw [bufAt_update st samples H.hsamp _ hin, hfull]

/-- Accepting the remainder datagram in mid-collection with exactly one
expected block left: the remaining samples are copied and the completed
buffer, bit-identical to the input frame, is emitted. -/
theorem acceptFixed_remainder_final (crc : List Nat → Nat) (oob : Nat → Nat) (t1 t2 : Nat)
    (st : UDPSinkState) (samples : List (List Nat)) (H : RTHyps st samples)
    (hrem : 0 < (UDPSink.buildMeta crc t1 t2 st samples.length).m_remainderSamples)
    (hnc : ¬ crc (((UDPSink.remBuf oob st samples
        (UDPSink.buildMeta crc t1 t2 st samples.length)).take st.m_udpSize).take 34) %
        2 ^ 64 =
      (deserializeMeta ((UDPSink.remBuf oob st samples
        (UDPSink.buildMeta crc t1 t2 st samples.length)).take st.m_udpSize)).m_crc) :
    (SDRdaemonBuffer.acceptFixed crc
        (collectS crc t1 t2 st samples
          (UDPSink.buildMeta crc t1 t2 st samples.length).m_nbCompleteBlocks)
        ((UDPSink.remBuf oob st samples
          (UDPSink.buildMeta crc t1 t2 st samples.length)).take st.m_udpSize)).2 =
      some samples.flatten := by
  have hcbv : (UDPSink.buildMeta crc t1 t2 st samples.length).m_nbCompleteBlocks =
      samples.length / UDPSink.spbv st := by
    rw [buildMeta_nbCompleteBlocks]
    exact Nat.mod_eq_of_lt H.htr
  have hremv := buildMeta_rem_eq crc t1 t2 st samples.length H.hspb
  have hneq2 : (UDPSink.buildMeta crc t1 t2 st samples.length).m_nbCompleteBlocks *
      UDPSink.spbv st +
      (UDPSink.buildMeta crc t1 t2 st samples.length).m_remainderSamples =
      samples.length := by
    rw [hcbv, hremv]
    have h2 := Nat.div_add_mod samples.length (UDPSink.spbv st)
    calc samples.length / UDPSink.spbv st * UDPSink.spbv st +
          samples.length % UDPSink.spbv st
        = UDPSink.spbv st * (samples.length / UDPSink.spbv st) +
          samples.length % UDPSink.spbv st := by ring
      _ = samples.length := h2
  have hcble : (UDPSink.buildMeta crc t1 t2 st samples.length).m_nbCompleteBlocks *
      UDPSink.spbv st ≤ samples.length := by omega
  have hA : ((samples.take ((UDPSink.buildMeta crc t1 t2 st
      samples.length).m_nbCompleteBlocks * UDPSink.spbv st)).flatten).length =
      (UDPSink.buildMeta crc t1 t2 st samples.length).m_nbCompleteBlocks *
        UDPSink.spbv st * UDPSink.stridev st :=
    flatten_take_length st samples H.hsamp _ hcble
  have hcl := copyLenD_le crc t1 t2 st samples.length H.hspb
  have hclS : UDPSink.copyLenD (UDPSink.buildMeta crc t1 t2 st samples.length) =
      (UDPSink.buildMeta crc t1 t2 st samples.length).m_remainderSamples *
        UDPSink.stridev st := by
    rw [UDPSink.copyLenD, buildMeta_sampleBytes_nib, UDPSink.stridev]
    ring
  have hcond1 : ((UDPSink.buildMeta crc t1 t2 st samples.length).m_nbCompleteBlocks +
      (if 0 < (UDPSink.buildMeta crc t1 t2 st
        samples.length).m_remainderSamples then 1 else 0) -
      (UDPSink.buildMeta crc t1 t2 st samples.length).m_nbCompleteBlocks = 1 ∧
      0 < (UDPSink.buildMeta crc t1 t2 st samples.length).m_remainderSamples) := by
    rw [if_pos hrem]
    omega
  have hc2 : ((UDPSink.buildMeta crc t1 t2 st samples.length).m_nbCompleteBlocks +
      (if 0 < (UDPSink.buildMeta crc t1 t2 st
        samples.length).m_remainderSamples then 1 else 0) -
      (UDPSink.buildMeta crc t1 t2 st samples.length).m_nbCompleteBlocks) ≤ 1 := by
    rw [if_pos hrem]
    omega
  have hargR : (UDPSink.buildMeta crc t1 t2 st samples.length).m_remainderSamples * 2 *
      ((UDPSink.buildMeta crc t1 t2 st samples.length).m_sampleBytes % 16) =
      UDPSink.copyLenD (UDPSink.buildMeta crc t1 t2 st samples.length) := by
    rw [UDPSink.copyLenD]
    ring
  have hbytesR : ((UDPSink.remBuf oob st samples
      (UDPSink.buildMeta crc t1 t2 st samples.length)).take st.m_udpSize).take
      (UDPSink.copyLenD (UDPSink.buildMeta crc t1 t2 st samples.length)) =
      ((samples.drop ((UDPSink.buildMeta crc t1 t2 st
          samples.length).m_nbCompleteBlocks * UDPSink.spbv st)).take
        (UDPSink.buildMeta crc t1 t2 st samples.length).m_remainderSamples).flatten := by
    rw [List.take_take, Nat.min_eq_left hcl, UDPSink.remBuf,
      take_append_len _ _ _ (datagramAt_length _ _ _ _),
      copied_eq_remainder_slice crc oob t1 t2 st samples H.hspb H.hsamp]
  have hslen : (((samples.drop ((UDPSink.buildMeta crc t1 t2 st
      samples.length).m_nbCompleteBlocks * UDPSink.spbv st)).take
      (UDPSink.buildMeta crc t1 t2 st samples.length).m_remainderSamples).flatten).length =
      UDPSink.copyLenD (UDPSink.buildMeta crc t1 t2 st samples.length) := by
    rw [flatten_length_uniform (UDPSink.stridev st) _
        (fun s hs => H.hsamp s (List.mem_of_mem_drop (List.mem_of_mem_take hs))),
      List.length_take, List.length_drop, Nat.min_eq_left (by omega), hclS]
    ring
  have hdropR : (((samples.take ((UDPSink.buildMeta crc t1 t2 st
      samples.length).m_nbCompleteBlocks * UDPSink.spbv st)).flatten ++
      List.replicate ((samples.length - (UDPSink.buildMeta crc t1 t2 st
        samples.length).m_nbCompleteBlocks * UDPSink.spbv st) * UDPSink.stridev st) 0).drop
      ((UDPSink.buildMeta crc t1 t2 st samples.length).m_nbCompleteBlocks *
        UDPSink.spbv st * UDPSink.stridev st +
        UDPSink.copyLenD (UDPSink.buildMeta crc t1 t2 st samples.length))) = [] := by
    apply List.drop_eq_nil_of_le
    rw [List.length_append, hA, List.length_replicate, hclS]
    have e1 : (samples.length - (UDPSink.buildMeta crc t1 t2 st
        samples.length).m_nbCompleteBlocks * UDPSink.spbv st) =
        (UDPSink.buildMeta crc t1 t2 st samples.length).m_remainderSamples := by
      omega
    rw [e1]
  have htakeR : (((samples.take ((UDPSink.buildMeta crc t1 t2 st
      samples.length).m_nbCompleteBlocks * UDPSink.spbv st)).flatten ++
      List.replicate ((samples.length - (UDPSink.buildMeta crc t1 t2 st
        samples.length).m_nbCompleteBlocks * UDPSink.spbv st) * UDPSink.stridev st) 0).take
      ((UDPSink.buildMeta crc t1 t2 st samples.length).m_nbCompleteBlocks *
        UDPSink.spbv st * UDPSink.stridev st)) =
      (samples.take ((UDPSink.buildMeta crc t1 t2 st
        samples.length).m_nbCompleteBlocks * UDPSink.spbv st)).flatten :=
    take_append_len _ _ _ hA
  have hfullR : (samples.take ((UDPSink.buildMeta crc t1 t2 st
      samples.length).m_nbCompleteBlocks * UDPSink.spbv st)).flatten ++
      ((samples.drop ((UDPSink.buildMeta crc t1 t2 st
          samples.length).m_nbCompleteBlocks * UDPSink.spbv st)).take
        (UDPSink.buildMeta crc t1 t2 st samples.length).m_remainderSamples).flatten =
      samples.flatten := by
    rw [← List.flatten_append, ← List.take_add, hneq2, List.take_length]
  simp only [SDRdaemonBuffer.acceptFixed, SDRdaemonBuffer.acceptWith, collectS]
  rw [if_neg hnc]
  simp only [if_true, if_pos hcond1, hargR, hbytesR, hslen, if_pos hc2, htakeR, hdropR,
    List.append_nil]
  rw [hfullR]

theorem write_snd_eq (crc : List Nat → Nat) (oob : Nat → Nat) (t1 t2 : Nat)
    (st : UDPSinkState) (samples : List (List Nat)) :
    (UDPSink.write crc oob t1 t2 st samples).2 =
      UDPSink.headerD crc t1 t2 st samples.length ::
        ((List.range ((UDPSink.buildMeta crc t1 t2 st
            samples.length).m_nbCompleteBlocks)).map (UDPSink.payloadD oob st samples) ++
          (if 0 < (UDPSink.buildMeta crc t1 t2 st samples.length).m_remainderSamples
            then [(UDPSink.remBuf oob st samples
              (UDPSink.buildMeta crc t1 t2 st samples.length)).take st.m_udpSize]
            else [])) := by
  by_cases h : 0 < (UDPSink.buildMeta crc t1 t2 st samples.length).m_remainderSamples
  · simp only [UDPSink.write, if_pos h]
  · simp only [UDPSink.write, if_neg h, List.append_nil]

theorem collect_loop (crc : List Nat → Nat) (oob : Nat → Nat) (t1 t2 : Nat)
    (st : UDPSinkState) (samples : List (List Nat)) (H : RTHyps st samples)
    (hnc : ∀ k, k < (UDPSink.buildMeta crc t1 t2 st samples.length).m_nbCompleteBlocks →
      ¬ crc ((UDPSink.payloadD oob st samples k).take 34) % 2 ^ 64 =
        (deserializeMeta (UDPSink.payloadD oob st samples k)).m_crc) :
    ∀ j k, k + j + 1 ≤ (UDPSink.buildMeta crc t1 t2 st samples.length).m_nbCompleteBlocks +
      (if 0 < (UDPSink.buildMeta crc t1 t2 st
        samples.length).m_remainderSamples then 1 else 0) →
      reassembleRun (SDRdaemonBuffer.acceptFixed crc) (collectS crc t1 t2 st samples k)
        ((List.range' k j).map (UDPSink.payloadD oob st samples)) =
      (collectS crc t1 t2 st samples (k + j), []) := by
  intro j
  induction j with
  | zero =>
    intro k hk
    simp [reassembleRun]
  | succ j ih =>
    intro k hk
    have hr1 : (if 0 < (UDPSink.buildMeta crc t1 t2 st
        samples.length).m_remainderSamples then 1 else 0) ≤ 1 := by
      split <;> omega
    have hkcb : k < (UDPSink.buildMeta crc t1 t2 st samples.length).m_nbCompleteBlocks := by
      omega
    have hstep := acceptFixed_payload_mid crc oob t1 t2 st samples H k (by omega)
      (hnc k hkcb)
    rw [show List.range' k (j + 1) = k :: List.range' (k + 1) j from rfl]
    simp only [List.map_cons, reassembleRun, hstep]
    rw [ih (k + 1) (by omega)]
    have he : k + 1 + j = k + (j + 1) := by omega
    rw [he]
    simp

/-- Claim C4, amended: for every input batch and well-formed sink state,
feeding one write call's datagrams, in emission order with no loss, to
the reassembler amended to derive the expected block count as
completeBlockCount plus one when remainderSamples is positive (instead of
reading the blockCount field, which the sender stores as 1) yields
exactly one completed frame, bit-identical to the input batch, provided
no payload datagram collides with the checksum test (the spec's
statistical discriminator assumption). -/
theorem claim4_amended (crc : List Nat → Nat) (oob : Nat → Nat) (t1 t2 : Nat)
    (st : UDPSinkState) (samples : List (List Nat)) (H : RTHyps st samples)
    (hnoc : ∀ d ∈ ((UDPSink.write crc oob t1 t2 st samples).2).tail,
      ¬ crc (d.take 34) % 2 ^ 64 = (deserializeMeta d).m_crc) :
    (reassembleRun (SDRdaemonBuffer.acceptFixed crc) ReassemblerState.init
      (UDPSink.write crc oob t1 t2 st samples).2).2 = [samples.flatten] := by
  rw [write_snd_eq] at hnoc ⊢
  simp only [List.tail_cons] at hnoc
  have hnc : ∀ k, k < (UDPSink.buildMeta crc t1 t2 st samples.length).m_nbCompleteBlocks →
      ¬ crc ((UDPSink.payloadD oob st samples k).take 34) % 2 ^ 64 =
        (deserializeMeta (UDPSink.payloadD oob st samples k)).m_crc :=
    fun k hk => hnoc _ (List.mem_append_left _
      (List.mem_map_of_mem _ (List.mem_range.2 hk)))
  simp only [reassembleRun,
    acceptFixed_header crc t1 t2 st samples H ReassemblerState.init]
  by_cases hrem : 0 < (UDPSink.buildMeta crc t1 t2 st samples.length).m_remainderSamples
  · have hncR := hnoc _ (List.mem_append_right _ (by
      rw [if_pos hrem]
      exact List.mem_singleton.2 rfl))
    rw [if_pos hrem, List.range_eq_range', reassembleRun_append,
      collect_loop crc oob t1 t2 st samples H hnc
        (UDPSink.buildMeta crc t1 t2 st samples.length).m_nbCompleteBlocks 0
        (by rw [if_pos hrem]; omega)]
    simp only [Nat.zero_add, reassembleRun,
      acceptFixed_remainder_final crc oob t1 t2 st samples H hrem hncR]
    simp
  · have hrem0 : (UDPSink.buildMeta crc t1 t2 st samples.length).m_remainderSamples = 0 := by
      omega
    have hmod0 : samples.length % UDPSink.spbv st = 0 := by
      have := buildMeta_rem_eq crc t1 t2 st samples.length H.hspb
      omega
    have hcb : 0 < (UDPSink.buildMeta crc t1 t2 st samples.length).m_nbCompleteBlocks := by
      rw [buildMeta_nbCompleteBlocks, Nat.mod_eq_of_lt H.htr]
      have hn0 := H.hn0
      have hspb := H.hspb
      rcases Nat.lt_or_ge samples.length (UDPSink.spbv st) with hlt | hge
      · rw [Nat.mod_eq_of_lt hlt] at hmod0
        omega
      · exact Nat.div_pos hge hspb
    have hsplit : List.range' 0 (UDPSink.buildMeta crc t1 t2 st
        samples.length).m_nbCompleteBlocks =
        List.range' 0 ((UDPSink.buildMeta crc t1 t2 st
          samples.length).m_nbCompleteBlocks - 1) ++
          [(UDPSink.buildMeta crc t1 t2 st samples.length).m_nbCompleteBlocks - 1] := by
      obtain ⟨c, hc⟩ : ∃ c, (UDPSink.buildMeta crc t1 t2 st
          samples.length).m_nbCompleteBlocks = c + 1 :=
        ⟨(UDPSink.buildMeta crc t1 t2 st samples.length).m_nbCompleteBlocks - 1, by omega⟩
      rw [hc]
      simp [List.range'_1_concat]
    have hncL := hnc _ (by omega :
      (UDPSink.buildMeta crc t1 t2 st samples.length).m_nbCompleteBlocks - 1 <
        (UDPSink.buildMeta crc t1 t2 st samples.length).m_nbCompleteBlocks)
    rw [if_neg hrem, List.append_nil, List.range_eq_range', hsplit, List.map_append,
      reassembleRun_append,
      collect_loop crc oob t1 t2 st samples H hnc
        ((UDPSink.buildMeta crc t1 t2 st samples.length).m_nbCompleteBlocks - 1) 0
        (by rw [if_neg hrem]; omega)]
    simp only [Nat.zero_add, List.map_cons, List.map_nil, reassembleRun]
    rw [show ((SDRdaemonBuffer.acceptFixed crc
        (collectS crc t1 t2 st samples
          ((UDPSink.buildMeta crc t1 t2 st samples.length).m_nbCompleteBlocks - 1))
        (UDPSink.payloadD oob st samples
          ((UDPSink.buildMeta crc t1 t2 st samples.length).m_nbCompleteBlocks - 1)))).2 =
      some samples.flatten from
        acceptFixed_payload_last crc oob t1 t2 st samples H hrem0 hcb hncL]
    simp

/-- Claim C4 witness: a concrete 23-sample frame through the small sink
round-trips bit-identically through the amended reassembler. -/
theorem claim4_witness :
    (RTHyps smallState (List.replicate 23 [1, 1]) ∧
      ∀ d ∈ ((UDPSink.write crcModel (fun _ => 0) 3 4 smallState
          (List.replicate 23 [1, 1])).2).tail,
        ¬ crcModel (d.take 34) % 2 ^ 64 = (deserializeMeta d).m_crc) ∧
    (reassembleRun (SDRdaemonBuffer.acceptFixed crcModel) ReassemblerState.init
        (UDPSink.write crcModel (fun _ => 0) 3 4 smallState
          (List.replicate 23 [1, 1])).2).2 =
      [(List.replicate 23 ([1, 1] : List Nat)).flatten] :=
  ⟨⟨⟨by decide, by decide, by decide, by decide, by decide, by decide, by decide,
      by decide, by decide⟩, by decide⟩,
    claim4_amended crcModel (fun _ => 0) 3 4 smallState (List.replicate 23 [1, 1])
      ⟨by decide, by decide, by decide, by decide, by decide, by decide, by decide,
        by decide, by decide⟩ (by decide)⟩
